import Mathlib

/-!
Verification development for the front end (parser → semantic analyzer) of the
curv expression language.  The definitions below are a shallow embedding of
`src/curv/analyzer.cc` and `src/curv/parser.cc` (plus the builtin namespace of
`src/curv/builtin.cc`).  C++ classes with virtual dispatch become inductive
types with a dispatching function; the mutable `Environ` chain becomes an
explicit list of frames threaded through the analysis; exceptions become
`Except`.  Machine doubles produced by `strtod` are abstracted as the
numeral's literal payload (no claim depends on IEEE-754 arithmetic).
-/

namespace Curv

/-- Atom: interned identifier name, equality and ordering by content
(`curv/atom.h`, not under src; modelled from the spec: "interned identifier
name. Equality and hashing by content"). -/
abbrev Atom := String

/-- Token kinds used by the analyzer and the parser (the closed set of
`curv/token.h`, restricted to the kinds the embedded code inspects; the
remaining kinds only travel through `Binary_Phrase`/`Unary_Phrase`
unchanged). -/
inductive TokKind where
  | k_end | k_missing | k_phrase
  | k_num | k_ident | k_string
  | k_lparen | k_rparen | k_lbracket | k_rbracket | k_lbrace | k_rbrace
  | k_comma | k_semicolon
  | k_right_arrow | k_left_call | k_right_call | k_equate | k_colon
  | k_range | k_open_range | k_by | k_dot | k_apostrophe | k_ellipsis
  | k_power | k_plus | k_minus | k_times | k_over
  | k_equal | k_not_equal | k_less | k_greater
  | k_less_or_equal | k_greater_or_equal
  | k_and | k_or | k_not
  | k_if | k_else | k_for | k_let
  deriving DecidableEq, Repr

/-- Atom_Map: `std::map<Atom, T>` (order by key, `operator[]` inserts or
replaces).  Embedded as an association list kept sorted by key so that
iteration order matches the C++ ordered map. -/
abbrev AtomMap (α : Type) : Type := List (Atom × α)

/-- Empty Atom_Map. -/
def AtomMap.empty {α : Type} : AtomMap α := []

/-- Lookup in an Atom_Map (`std::map::find`). -/
def AtomMap.find {α : Type} : AtomMap α → Atom → Option α
  | [], _ => none
  | (k, v) :: t, a => if a = k then some v else AtomMap.find t a

/-- Lexicographic order on the characters of two atoms (the `Atom`
`operator<` used by the C++ ordered map; byte-wise comparison is modelled
code-point-wise, which agrees on the ASCII identifiers at hand). -/
def charsLt : List Char → List Char → Bool
  | [], [] => false
  | [], _ :: _ => true
  | _ :: _, [] => false
  | c :: cs, d :: ds =>
    if c.toNat < d.toNat then true
    else if d.toNat < c.toNat then false
    else charsLt cs ds

/-- Order on atoms by content. -/
def atomLt (a b : Atom) : Bool := charsLt a.data b.data

/-- Insert-or-replace in an Atom_Map (`std::map::operator[] =`): kept sorted
by key, replacement keeps the entry's position. -/
def AtomMap.insert {α : Type} : AtomMap α → Atom → α → AtomMap α
  | [], a, v => [(a, v)]
  | (k, w) :: t, a, v =>
    if a = k then (k, v) :: t
    else if atomLt a k then (a, v) :: (k, w) :: t
    else (k, w) :: AtomMap.insert t a v

/-- Number of entries of an Atom_Map (`std::map::size`, counts distinct
keys). -/
def AtomMap.size {α : Type} (m : AtomMap α) : Nat := List.length m

/-- Runtime values as far as the analyzer builds them into `Constant` nodes.
`num` carries the numeral's literal payload as a rational (`strtod`'s
IEEE-754 conversion is outside the embedding); `builtinNum` stands for the
machine-double constants of the builtin namespace (pi, tau, inf); `fn` stands
for a native function value of the builtin namespace. -/
inductive Value where
  | num (q : ℚ)
  | str (s : String)
  | vnull
  | vbool (b : Bool)
  | fn (name : String)
  | builtinNum (name : String)
  deriving DecidableEq, Repr

/-- Phrase: the concrete syntax tree (`curv/phrase.h` is not under src; the
variants and their payloads are modelled from the spec §3 "Phrase" and from
every use in `analyzer.cc`/`parser.cc`).  Delimited and sequence phrases hold
`{expr, separator-token}` pairs, where `k_missing` marks "no separator after
last".  `ident` carries a location stamp `loc` standing for the token's byte
range, used only to identify which occurrence a diagnostic points at.
`lambda` carries the mutable `recursive_` flag as an immutable field: the
only writer (`Bindings::add_definition`) stores the marked copy, the only
reader is the analysis of that stored copy. -/
inductive Phrase where
  | ident (loc : Nat) (a : Atom)
  | numeral (q : ℚ)
  | strlit (s : String)
  | unary (op : TokKind) (arg : Phrase)
  | binary (op : TokKind) (left right : Phrase)
  | paren (args : List (Phrase × TokKind))
  | bracket (args : List (Phrase × TokKind))
  | brace (args : List (Phrase × TokKind))
  | comma (args : List (Phrase × TokKind))
  | semicolon (args : List (Phrase × TokKind))
  | if_ (cond then_ : Phrase) (else_ : Option Phrase)
  | for_ (args : List (Phrase × TokKind)) (body : Phrase)
  | let_ (args : List (Phrase × TokKind)) (body : Phrase)
  | lambda (left right : Phrase) (recursive : Bool)
  | range (first last : Phrase) (step : Option Phrase)
  | definition (left right : Phrase)
  | call (fn args : Phrase)
  | empty
  | module (body : Phrase)

mutual
/-- Operation: the evaluable IR nodes built by the analyzer
(`curv/meaning.h` is not under src; the node set and fields are modelled from
the spec §3 "Meaning" and from every construction site in `analyzer.cc`).
Source back-pointers carried by every C++ Meaning are dropped: diagnostics in
the embedding carry the offending phrase directly. -/
inductive Op where
  | constant (v : Value)
  | arg_ref (slot : Nat)
  | let_ref (slot : Nat)
  | module_ref (slot : Nat)
  | nonlocal_ref (slot : Nat)
  | nonlocal_function_ref (slot : Nat)
  | not_expr (a : Op)
  | prefix_expr (op : TokKind) (a : Op)
  | infix_expr (op : TokKind) (a b : Op)
  | or_expr (a b : Op)
  | and_expr (a b : Op)
  | equal_expr (a b : Op)
  | not_equal_expr (a b : Op)
  | less_expr (a b : Op)
  | greater_expr (a b : Op)
  | less_or_equal_expr (a b : Op)
  | greater_or_equal_expr (a b : Op)
  | power_expr (a b : Op)
  | dot_expr (a : Op) (field : Atom)
  | at_expr (a index : Op)
  | if_expr (c t : Op)
  | if_else_expr (c t e : Op)
  | let_expr (first_slot : Nat) (values : List SlotVal) (body : Op)
  | for_expr (slot : Nat) (list : Op) (body : Op)
  | range_gen (first last : Op) (step : Option Op)
  | list_expr (args : List Op)
  | sequence_expr (args : List Op)
  | record_expr (fields : List (Atom × Op))
  | lambda_expr (body : Op) (nonlocals : List Op) (nargs nslots : Nat)
  | call_expr (fn : Op) (args : List Op)
  | module_expr (dict : List (Atom × Nat)) (slots : List SlotVal)
      (elements : List Op) (frame_nslots : Nat)
  | echo_action (args : List Op)

/-- Slot values placed into module/let slot arrays by the analyzer: a
`Thunk(expr)` (`curv/thunk.h`), a raw `Lambda` value (`curv/function.h`), or
a plain value (the default-constructed null `Value` that pre-fills
`std::vector<Value> values(n)` before the thunks are stored). -/
inductive SlotVal where
  | thunk (e : Op)
  | lambda (body : Op) (nargs nslots : Nat)
  | val (v : Value)
end

/-- Meaning: an `Operation` or a compile-time `Metafunction` (only `echo`
ships).  The metafunction keeps its source phrase, the only payload the
embedded code observes (for the "not an operation" diagnostic). -/
inductive Meaning where
  | op (o : Op)
  | metafun (source : Phrase)

/-- Definition as produced by `analyze_def`: `{ name: Identifier,
definiens: Phrase }`. -/
structure Definition where
  nameLoc : Nat
  name : Atom
  definiens : Phrase

/-- Builtin namespace entry (`curv/builtin.h` via `builtin.cc`): a value
builtin or the `echo` metafunction builtin. -/
inductive Builtin where
  | value (v : Value)
  | metafun

/-- Exceptions raised by the front end.  `diag` is a user diagnostic carrying
the phrase it points at (`At_Phrase`) and the message; `ptoken` is a parser
diagnostic carrying the offending token (`At_Token`); `badCast` models the
C++ `dynamic_cast<...&>` failure in `Bindings::analyze_values` (provably
unreachable); `impossible` marks environment-chain shapes the C++ pointer
structure cannot produce; `unmodelled` is raised for `Empty_Phrase::analyze`,
whose implementation is not under src; `outOfFuel` is the recursion budget of the
embedding, not a behavior of the program. -/
inductive Err where
  | diag (at_ : Phrase) (msg : String)
  | ptoken (tok : TokKind) (msg : String)
  | badCast
  | impossible
  | unmodelled
  | outOfFuel

/-- Builtin_Value::to_meaning / Builtin_Meaning::to_meaning from
`builtin.cc` lines 28-32 and the `Echo_Metafunction` registration: a value
builtin yields a `Constant`, the metafunction builtin yields a
`Metafunction` whose source is the identifier. -/
def Builtin.to_meaning : Builtin → Nat → Atom → Meaning
  | .value v, _, _ => .op (.constant v)
  | .metafun, loc, a => .metafun (.ident loc a)

/-- The builtin namespace of `builtin.cc` lines 237-255. -/
def builtin_namespace : AtomMap Builtin :=
  [("abs", .value (.fn "abs")),
   ("echo", .metafun),
   ("false", .value (.vbool false)),
   ("file", .value (.fn "file")),
   ("inf", .value (.builtinNum "inf")),
   ("len", .value (.fn "len")),
   ("max", .value (.fn "max")),
   ("min", .value (.fn "min")),
   ("norm", .value (.fn "norm")),
   ("null", .value .vnull),
   ("pi", .value (.builtinNum "pi")),
   ("shape2d", .value (.fn "shape2d")),
   ("sqrt", .value (.fn "sqrt")),
   ("tau", .value (.builtinNum "tau")),
   ("true", .value (.vbool true))]

/-- Bindings (`curv/analyzer.h`, not under src; modelled from the spec §3
"Bindings" and its uses in `analyzer.cc`): a dictionary from Atom to dense
slot index, the running `cur_position_`, and the parallel ordered list of
definiens phrases. -/
structure Bindings where
  dict : AtomMap Nat
  cur : Nat
  slotPhrases : List Phrase

/-- Empty Bindings. -/
def Bindings.empty : Bindings := ⟨AtomMap.empty, 0, []⟩

/-- Mark the `recursive_` flag of a lambda definiens
(`lambda->recursive_ = true` in `Bindings::add_definition`,
analyzer.cc lines 70-72). -/
def markRecursive : Phrase → Phrase
  | .lambda l r _ => .lambda l r true
  | ph => ph

/-- Bindings::add_definition (analyzer.cc lines 60-73): reject a duplicate
name with "multiply defined" at the new definition's name, otherwise assign
the next slot, record the definiens, and set a lambda definiens'
`recursive_` flag. -/
def Bindings.add_definition (b : Bindings) (d : Definition) :
    Except Err Bindings :=
  if (b.dict.find d.name).isSome then
    .error (.diag (.ident d.nameLoc d.name) (d.name ++ ": multiply defined"))
  else
    .ok ⟨b.dict.insert d.name b.cur, b.cur + 1,
         b.slotPhrases ++ [markRecursive d.definiens]⟩

/-- Test for a Lambda_Phrase (the `dynamic_cast<Lambda_Phrase*>` /
`isa_shared<const Lambda_Phrase>` checks of analyzer.cc). -/
def isLambdaPhrase : Phrase → Bool
  | .lambda _ _ _ => true
  | _ => false

/-- Bindings::is_recursive_function (analyzer.cc lines 75-79): the phrase
stored for the slot is a Lambda_Phrase. -/
def Bindings.is_recursive_function (b : Bindings) (slot : Nat) : Bool :=
  match b.slotPhrases.get? slot with
  | some ph => isLambdaPhrase ph
  | none => false

/-- Scope data of the Environ subclasses: the builtin namespace
(`Builtin_Environ`), a module's `Bindings::Environ`, a lambda's
`Arg_Environ` (with its mutable nonlocal dictionary and capture list), a
`Let_Environ`, and a `For_Environ`. -/
inductive ScopeData where
  | builtin (ns : AtomMap Builtin)
  | bindingsEnv (b : Bindings)
  | argEnv (names : AtomMap Nat) (recursive : Bool)
      (nld : AtomMap Nat) (nle : List Op)
  | letEnv (names : AtomMap (Nat × Phrase))
  | forEnv (name : Atom) (slot : Nat)

/-- One Environ of the scope chain with its mutable counters.  The base
`Environ` constructor (in `curv/analyzer.h`, not under src) is modelled as
initializing both counters to 0; subclasses that override this
(`Arg_Environ`, `Let_Environ`, `For_Environ`) set their counters explicitly,
exactly as in analyzer.cc. -/
structure Frame where
  data : ScopeData
  nslots : Nat
  maxslots : Nat

/-- Environ chain, innermost scope first (the `parent_` pointers). -/
abbrev Env := List Frame

/-- Current `frame_nslots` (of the innermost scope). -/
def frameNslots : Env → Nat
  | [] => 0
  | f :: _ => f.nslots

/-- Current `frame_maxslots` (of the innermost scope). -/
def frameMaxslots : Env → Nat
  | [] => 0
  | f :: _ => f.maxslots

/-- Write the innermost scope's `frame_maxslots` (the absorption
`env.frame_maxslots = env2.frame_maxslots`). -/
def setHeadMaxslots (v : Nat) : Env → Env
  | [] => []
  | f :: r => { f with maxslots := v } :: r

/-- Per-scope resolution for the scope kinds whose `single_lookup` never
consults the parent chain: `Builtin_Environ::single_lookup` (analyzer.cc
51-58), `Bindings::Environ::single_lookup` (81-94),
`Let_Environ::single_lookup` (629-636), `For_Environ::single_lookup`
(687-693).  `none` means "ask the parent".  `Arg_Environ` is handled in
`lookup`/`singleLookup` because its miss path recursively resolves through
the parent chain. -/
def pureSingle (loc : Nat) (a : Atom) : ScopeData → Option Meaning
  | .builtin ns => (ns.find a).map fun b => b.to_meaning loc a
  | .bindingsEnv b =>
    match b.dict.find a with
    | some slot =>
      some (.op (if b.is_recursive_function slot then
        .nonlocal_function_ref slot else .module_ref slot))
    | none => none
  | .argEnv _ _ _ _ => none
  | .letEnv names => (names.find a).map fun p => .op (.let_ref p.1)
  | .forEnv name slot =>
    if a = name then some (.op (.let_ref slot)) else none

/-- Environ::lookup (analyzer.cc lines 40-49): walk the parent chain trying
each scope's `single_lookup` innermost-outward and return the first
non-absent result; on exhaustion raise "<name>: not defined" at the
identifier.  The virtual `Arg_Environ::single_lookup` (lines 195-221) is
inlined here (its miss path calls `parent_->lookup`, i.e. `lookup` on the
tail of the chain); the theorem `lookup_cons` below recovers the
loop-over-`singleLookup` shape of the C++ code. -/
def lookup (loc : Nat) (a : Atom) : Env → Except Err (Meaning × Env)
  | [] => .error (.diag (.ident loc a) (a ++ ": not defined"))
  | f :: rest =>
    match f.data with
    | .argEnv names recursive nld nle =>
      match names.find a with
      | some slot => .ok (.op (.arg_ref slot), f :: rest)
      | none =>
        if recursive then
          match lookup loc a rest with
          | .error e => .error e
          | .ok (m, rest₁) => .ok (m, f :: rest₁)
        else
          match nld.find a with
          | some slot => .ok (.op (.nonlocal_ref slot), f :: rest)
          | none =>
            match lookup loc a rest with
            | .error e => .error e
            | .ok (m, rest₁) =>
              match m with
              | .op (.constant v) => .ok (.op (.constant v), f :: rest₁)
              | .op e =>
                let f₂ : Frame :=
                  ⟨.argEnv names recursive (nld.insert a nle.length)
                     (nle ++ [e]), f.nslots, f.maxslots⟩
                .ok (.op (.nonlocal_ref nle.length), f₂ :: rest₁)
              | m => .ok (m, f :: rest₁)
    | d =>
      match pureSingle loc a d with
      | some m => .ok (m, f :: rest)
      | none =>
        match lookup loc a rest with
        | .error e => .error e
        | .ok (m, rest₁) => .ok (m, f :: rest₁)

/-- Environ::single_lookup (one virtual-dispatch step as invoked by the
`Environ::lookup` walk): the pure scope kinds answer from their own
dictionaries; `Arg_Environ::single_lookup` (analyzer.cc 195-221) answers
`Arg_Ref` on a parameter hit, falls through to the parent in recursive mode,
and otherwise produces a definitive result — a previously captured
`Nonlocal_Ref`, a verbatim `Constant`, a newly captured `Nonlocal_Ref` (the
Operation is appended to the capture list), or the parent's meaning
unchanged. -/
def singleLookup (loc : Nat) (a : Atom) (f : Frame) (rest : Env) :
    Except Err (Option (Meaning × Frame × Env)) :=
  match f.data with
  | .argEnv names recursive nld nle =>
    match names.find a with
    | some slot => .ok (some (.op (.arg_ref slot), f, rest))
    | none =>
      if recursive then .ok none
      else
        match nld.find a with
        | some slot => .ok (some (.op (.nonlocal_ref slot), f, rest))
        | none =>
          match lookup loc a rest with
          | .error e => .error e
          | .ok (m, rest₁) =>
            match m with
            | .op (.constant v) => .ok (some (.op (.constant v), f, rest₁))
            | .op e =>
              let f₂ : Frame :=
                ⟨.argEnv names recursive (nld.insert a nle.length)
                   (nle ++ [e]), f.nslots, f.maxslots⟩
              .ok (some (.op (.nonlocal_ref nle.length), f₂, rest₁))
            | m => .ok (some (m, f, rest₁))
  | d => .ok ((pureSingle loc a d).map fun m => (m, f, rest))

/-- Phrase::analyze_def dispatch: `Definition_Phrase::analyze_def`
(analyzer.cc lines 326-350) with its three cases, and the default
`Phrase::analyze_def` (lines 34-38) returning absent for every other
phrase.  The `f(x) = body` sugar builds `Lambda_Phrase(call->args_, right)`
with the `recursive_` flag at its default (false). -/
def analyzeDef : Phrase → Except Err (Option Definition)
  | .definition left right =>
    match left with
    | .ident loc a => .ok (some ⟨loc, a, right⟩)
    | .call fn cargs =>
      match fn with
      | .ident loc a => .ok (some ⟨loc, a, .lambda cargs right false⟩)
      | fn => .error (.diag fn "not an identifier")
    | left => .error (.diag left "invalid definiendum")
  | _ => .ok none

/-- Parameter extraction over the elements of a lambda's Paren_Phrase
(analyzer.cc lines 169-177): each element must be an identifier; a repeated
name is re-inserted with the next slot index (`params[id->atom_] = slot++`).
-/
def lambdaParamsList : List (Phrase × TokKind) → AtomMap Nat → Nat →
    Except Err (AtomMap Nat × Nat)
  | [], params, slot => .ok (params, slot)
  | (ph, _) :: rest, params, slot =>
    match ph with
    | .ident _ a => lambdaParamsList rest (params.insert a slot) (slot + 1)
    | ph => .error (.diag ph "not a parameter")

/-- Phase 1 of Lambda_Phrase::analyze (analyzer.cc lines 162-179): the left
side must be an identifier (single parameter at slot 0) or a Paren_Phrase of
identifiers; anything else raises "not a parameter". -/
def lambdaParams : Phrase → Except Err (AtomMap Nat × Nat)
  | .ident _ a => .ok (AtomMap.empty.insert a 0, 1)
  | .paren args => lambdaParamsList args AtomMap.empty 0
  | ph => .error (.diag ph "not a parameter")

/-- Phase 1 of Let_Phrase::analyze (analyzer.cc lines 597-608): iterate the
argument list in textual order, each element must be a definition, reject
duplicate names at the new definition's name, and assign consecutive slots
starting from the caller's `frame_nslots`. -/
def letPhase1 : List (Phrase × TokKind) → Nat → AtomMap (Nat × Phrase) →
    Except Err (AtomMap (Nat × Phrase))
  | [], _, acc => .ok acc
  | (ph, _) :: rest, slot, acc =>
    match analyzeDef ph with
    | .error e => .error e
    | .ok none => .error (.diag ph "not a definition")
    | .ok (some d) =>
      if (acc.find d.name).isSome then
        .error (.diag (.ident d.nameLoc d.name)
          (d.name ++ ": multiply defined"))
      else letPhase1 rest (slot + 1) (acc.insert d.name (slot, d.definiens))

/-- Statements adapter (analyzer.cc lines 465-506): a Semicolon_Phrase body
is iterated element-wise, any other body is a single statement. -/
def statements : Phrase → List Phrase
  | .semicolon args => args.map (·.1)
  | ph => [ph]

/-- Phase 1 of Module_Phrase::analyze_module (analyzer.cc lines 511-520):
statements that analyze to a definition are added to the Bindings, the rest
are collected in order as elements. -/
def modulePhase1 : List Phrase → Bindings → List Phrase →
    Except Err (Bindings × List Phrase)
  | [], b, elems => .ok (b, elems)
  | st :: rest, b, elems =>
    match analyzeDef st with
    | .error e => .error e
    | .ok (some d) =>
      match b.add_definition d with
      | .error e => .error e
      | .ok b₁ => modulePhase1 rest b₁ elems
    | .ok none => modulePhase1 rest b (elems ++ [st])

/-- Binary_Phrase::analyze for every operator except `.` (analyzer.cc lines
236-318): dedicated nodes for disjunction, conjunction, the six comparisons
and the power operator,
`Infix_Expr(op, ...)` for everything else. -/
def mkBinary : TokKind → Op → Op → Op
  | .k_or, a, b => .or_expr a b
  | .k_and, a, b => .and_expr a b
  | .k_equal, a, b => .equal_expr a b
  | .k_not_equal, a, b => .not_equal_expr a b
  | .k_less, a, b => .less_expr a b
  | .k_greater, a, b => .greater_expr a b
  | .k_less_or_equal, a, b => .less_or_equal_expr a b
  | .k_greater_or_equal, a, b => .greater_or_equal_expr a b
  | .k_power, a, b => .power_expr a b
  | op, a, b => .infix_expr op a b

mutual
/-- Phrase::analyze dispatch over all phrase variants (`analyzer.cc`).  The
fuel argument is the embedding's recursion budget (the C++ recursion is
bounded by the finite phrase tree; the definition-sugar of `analyze_def`
creates phrases that are not subterms, so the embedding meters recursion
explicitly).  Where C++ leaves the evaluation order of sibling
`analyze_op` calls unspecified (arguments of `make<...>`), the embedding
fixes textual (left-to-right) order; for `At_Expr` the C++ order is fixed
(index before left operand) and mirrored. -/
def analyze : Nat → Phrase → Env → Except Err (Meaning × Env)
  | 0, _, _ => .error .outOfFuel
  | fuel + 1, ph, env =>
    match ph with
    | .ident loc a => lookup loc a env
    | .numeral q => .ok (.op (.constant (.num q)), env)
    | .strlit s => .ok (.op (.constant (.str s)), env)
    | .unary op arg =>
      match op with
      | .k_not =>
        match analyzeOp fuel arg env with
        | .error e => .error e
        | .ok (a, env₁) => .ok (.op (.not_expr a), env₁)
      | op =>
        match analyzeOp fuel arg env with
        | .error e => .error e
        | .ok (a, env₁) => .ok (.op (.prefix_expr op a), env₁)
    | .binary op left right =>
      match op with
      | .k_dot =>
        match right with
        | .ident _ a =>
          match analyzeOp fuel left env with
          | .error e => .error e
          | .ok (l, env₁) => .ok (.op (.dot_expr l a), env₁)
        | .bracket args =>
          match args with
          | [(ix, .k_missing)] =>
            match analyzeOp fuel ix env with
            | .error e => .error e
            | .ok (index, env₁) =>
              match analyzeOp fuel left env₁ with
              | .error e => .error e
              | .ok (l, env₂) => .ok (.op (.at_expr l index), env₂)
          | _ =>
            .error (.diag (.binary .k_dot left right) "not an expression")
        | right => .error (.diag right "invalid expression after \x27.\x27")
      | op₁ =>
        match analyzeOp fuel left env with
        | .error e => .error e
        | .ok (a, env₁) =>
          match analyzeOp fuel right env₁ with
          | .error e => .error e
          | .ok (b, env₂) => .ok (.op (mkBinary op₁ a b), env₂)
    | .paren args =>
      match args with
      | [(inner, .k_missing)] =>
        match analyzeOp fuel inner env with
        | .error e => .error e
        | .ok (o, env₁) => .ok (.op o, env₁)
      | _ =>
        match analyzeOpList fuel (args.map (·.1)) env with
        | .error e => .error e
        | .ok (os, env₁) => .ok (.op (.sequence_expr os), env₁)
    | .comma args =>
      match args with
      | [(inner, .k_missing)] =>
        match analyzeOp fuel inner env with
        | .error e => .error e
        | .ok (o, env₁) => .ok (.op o, env₁)
      | _ =>
        match analyzeOpList fuel (args.map (·.1)) env with
        | .error e => .error e
        | .ok (os, env₁) => .ok (.op (.sequence_expr os), env₁)
    | .semicolon args =>
      match args with
      | [(inner, _)] =>
        match analyzeOp fuel inner env with
        | .error e => .error e
        | .ok (o, env₁) => .ok (.op o, env₁)
      | _ => .error (.diag (.semicolon args) "; phrase not implemented")
    | .bracket args =>
      match analyzeOpList fuel (args.map (·.1)) env with
      | .error e => .error e
      | .ok (os, env₁) => .ok (.op (.list_expr os), env₁)
    | .brace args =>
      match recordLoop fuel (args.map (·.1)) AtomMap.empty env with
      | .error e => .error e
      | .ok (fields, env₁) => .ok (.op (.record_expr fields), env₁)
    | .if_ c t e? =>
      match analyzeOp fuel c env with
      | .error e => .error e
      | .ok (c₁, env₁) =>
        match analyzeOp fuel t env₁ with
        | .error e => .error e
        | .ok (t₁, env₂) =>
          match e? with
          | none => .ok (.op (.if_expr c₁ t₁), env₂)
          | some el =>
            match analyzeOp fuel el env₂ with
            | .error e => .error e
            | .ok (e₁, env₃) => .ok (.op (.if_else_expr c₁ t₁ e₁), env₃)
    | .for_ args body =>
      match args with
      | [(defexpr, _)] =>
        match defexpr with
        | .definition dleft dright =>
          match dleft with
          | .ident _ name =>
            match analyzeOp fuel dright env with
            | .error e => .error e
            | .ok (list, env₁) =>
              let slot := frameNslots env₁
              let forF : Frame :=
                ⟨.forEnv name slot, frameNslots env₁ + 1,
                 max (frameMaxslots env₁) (frameNslots env₁ + 1)⟩
              match analyzeOp fuel body (forF :: env₁) with
              | .error e => .error e
              | .ok (body₁, chainB) =>
                match chainB with
                | forF₁ :: restB =>
                  .ok (.op (.for_expr slot list body₁),
                       setHeadMaxslots forF₁.maxslots restB)
                | [] => .error .impossible
          | dleft => .error (.diag dleft "for: not an identifier")
        | defexpr => .error (.diag defexpr "for: not a definition")
      | _ => .error (.diag (.paren args) "for: malformed argument")
    | .let_ args body =>
      match letPhase1 args (frameNslots env) AtomMap.empty with
      | .error e => .error e
      | .ok bmap =>
        let n := bmap.size
        let letF : Frame :=
          ⟨.letEnv bmap, frameNslots env + n,
           max (frameMaxslots env) (frameNslots env + n)⟩
        let first_slot := frameNslots env
        match letValuesLoop fuel bmap first_slot
            (List.replicate n (.val .vnull)) (letF :: env) with
        | .error e => .error e
        | .ok (values, chainA) =>
          match analyzeOp fuel body chainA with
          | .error e => .error e
          | .ok (body₁, chainB) =>
            match chainB with
            | letF₁ :: restB =>
              .ok (.op (.let_expr first_slot values body₁),
                   setHeadMaxslots letF₁.maxslots restB)
            | [] => .error .impossible
    | .lambda left right rec =>
      match lambdaParams left with
      | .error e => .error e
      | .ok (params, _) =>
        let argF : Frame :=
          ⟨.argEnv params rec AtomMap.empty [], params.size, params.size⟩
        match analyzeOp fuel right (argF :: env) with
        | .error e => .error e
        | .ok (body, chainB) =>
          match chainB with
          | ⟨.argEnv _ _ _ nle, _, ms⟩ :: rest =>
            .ok (.op (.lambda_expr body nle params.size ms), rest)
          | _ => .error .impossible
    | .range first last step =>
      match analyzeOp fuel first env with
      | .error e => .error e
      | .ok (f₁, env₁) =>
        match analyzeOp fuel last env₁ with
        | .error e => .error e
        | .ok (l₁, env₂) =>
          match step with
          | none => .ok (.op (.range_gen f₁ l₁ none), env₂)
          | some st =>
            match analyzeOp fuel st env₂ with
            | .error e => .error e
            | .ok (s₁, env₃) => .ok (.op (.range_gen f₁ l₁ (some s₁)), env₃)
    | .definition l r => .error (.diag (.definition l r) "not an operation")
    | .call fn args =>
      match analyze fuel fn env with
      | .error e => .error e
      | .ok (.op o, env₁) =>
        match argsAnalyze fuel args env₁ with
        | .error e => .error e
        | .ok (argv, env₂) => .ok (.op (.call_expr o argv), env₂)
      | .ok (.metafun _, env₁) =>
        match argsAnalyze fuel args env₁ with
        | .error e => .error e
        | .ok (argv, env₂) => .ok (.op (.echo_action argv), env₂)
    | .empty => .error .unmodelled
    | .module body =>
      match modulePhase1 (statements body) Bindings.empty [] with
      | .error e => .error e
      | .ok (b, elems) =>
        let env2 : Env := ⟨.bindingsEnv b, 0, 0⟩ :: env
        match analyzeValuesList fuel b.slotPhrases env2 with
        | .error e => .error e
        | .ok (slots, chainA) =>
          match analyzeOpList fuel elems chainA with
          | .error e => .error e
          | .ok (xelems, chainB) =>
            match chainB with
            | bF :: restB =>
              .ok (.op (.module_expr b.dict slots xelems bF.maxslots), restB)
            | [] => .error .impossible
  termination_by structural fuel _ _ => fuel

/-- analyze_op (analyzer.cc lines 16-32): analyze, then
`Meaning::to_operation` — an Operation is returned as-is, a Metafunction
raises "not an operation" at its source. -/
def analyzeOp : Nat → Phrase → Env → Except Err (Op × Env)
  | 0, _, _ => .error .outOfFuel
  | fuel + 1, ph, env =>
    match analyze fuel ph env with
    | .error e => .error e
    | .ok (.op o, env₁) => .ok (o, env₁)
    | .ok (.metafun src, _) => .error (.diag src "not an operation")
  termination_by structural fuel _ _ => fuel

/-- Sequential analysis of a list of phrases as operations (the loops of
`Paren/Comma/List_Phrase::analyze`, module elements, and the parenthesized
call-argument case). -/
def analyzeOpList : Nat → List Phrase → Env → Except Err (List Op × Env)
  | 0, _, _ => .error .outOfFuel
  | fuel + 1, phs, env =>
    match phs with
    | [] => .ok ([], env)
    | ph :: rest =>
      match analyzeOp fuel ph env with
      | .error e => .error e
      | .ok (o, env₁) =>
        match analyzeOpList fuel rest env₁ with
        | .error e => .error e
        | .ok (os, env₂) => .ok (o :: os, env₂)
  termination_by structural fuel _ _ => fuel

/-- Call_Phrase::analyze_args (analyzer.cc lines 429-444): a Paren_Phrase
argument expands to one argument per element, any other phrase is a single
argument. -/
def argsAnalyze : Nat → Phrase → Env → Except Err (List Op × Env)
  | 0, _, _ => .error .outOfFuel
  | fuel + 1, args, env =>
    match args with
    | .paren pargs => analyzeOpList fuel (pargs.map (·.1)) env
    | ph =>
      match analyzeOp fuel ph env with
      | .error e => .error e
      | .ok (o, env₁) => .ok ([o], env₁)
  termination_by structural fuel _ _ => fuel

/-- Bindings::analyze_values (analyzer.cc lines 96-110), iterating the slot
phrases in slot order: a Lambda_Phrase slot is unwrapped into a raw
`Lambda(body, nargs, nslots)` (the `dynamic_cast<Lambda_Expr&>`), every
other slot becomes a `Thunk(expr)`. -/
def analyzeValuesList : Nat → List Phrase → Env →
    Except Err (List SlotVal × Env)
  | 0, _, _ => .error .outOfFuel
  | fuel + 1, phs, env =>
    match phs with
    | [] => .ok ([], env)
    | ph :: rest =>
      match analyzeOp fuel ph env with
      | .error e => .error e
      | .ok (e₀, env₁) =>
        match
          (if isLambdaPhrase ph then
             match e₀ with
             | .lambda_expr body _ nargs nslots =>
               Except.ok (SlotVal.lambda body nargs nslots)
             | _ => Except.error Err.badCast
           else Except.ok (SlotVal.thunk e₀)) with
        | .error e => .error e
        | .ok v =>
          match analyzeValuesList fuel rest env₁ with
          | .error e => .error e
          | .ok (vs, env₂) => .ok (v :: vs, env₂)
  termination_by structural fuel _ _ => fuel

/-- Phase 2 value loop of Let_Phrase::analyze (analyzer.cc lines 640-645):
iterate the (key-ordered) bindings map, analyze each definiens in the
Let_Environ, and store `Thunk(expr)` at index `slot - first_slot` of the
pre-sized values array. -/
def letValuesLoop : Nat → List (Atom × Nat × Phrase) → Nat → List SlotVal →
    Env → Except Err (List SlotVal × Env)
  | 0, _, _, _, _ => .error .outOfFuel
  | fuel + 1, items, first_slot, values, chain =>
    match items with
    | [] => .ok (values, chain)
    | (_, slot, ph) :: rest =>
      match analyzeOp fuel ph chain with
      | .error e => .error e
      | .ok (e₀, chain₁) =>
        letValuesLoop fuel rest first_slot
          (values.set (slot - first_slot) (.thunk e₀)) chain₁
  termination_by structural fuel _ _ _ _ => fuel

/-- Record_Phrase::analyze loop (analyzer.cc lines 537-551) with
analyze_definition (lines 446-457): every element must be a definition,
duplicate names are rejected before the definiens is analyzed, and the
analyzed definiens is stored in the fields dictionary.  No new scope is
created: the definientia are analyzed in the caller's environment. -/
def recordLoop : Nat → List Phrase → AtomMap Op → Env →
    Except Err (AtomMap Op × Env)
  | 0, _, _, _ => .error .outOfFuel
  | fuel + 1, phs, fields, env =>
    match phs with
    | [] => .ok (fields, env)
    | ph :: rest =>
      match analyzeDef ph with
      | .error e => .error e
      | .ok none => .error (.diag ph "not a definition")
      | .ok (some d) =>
        if (fields.find d.name).isSome then
          .error (.diag (.ident d.nameLoc d.name)
            (d.name ++ ": multiply defined"))
        else
          match analyzeOp fuel d.definiens env with
          | .error e => .error e
          | .ok (e₀, env₁) => recordLoop fuel rest (fields.insert d.name e₀) env₁
  termination_by structural fuel _ _ _ => fuel
end

/-- Scanner state: the remaining token stream (`curv/scanner.h` interface as
specified in §6: `get_token` yields `k_end` repeatedly at end of input; one
token of push-back).  The parser's idiom "get_token then push_token" is the
identity on the stream and is embedded as `peek`. -/
abbrev Scanner := List TokKind

/-- Next token without consuming it (get_token followed by push_token). -/
def peek : Scanner → TokKind
  | [] => .k_end
  | t :: _ => t

/-- Consume the next token (Scanner::get_token). -/
def getTok : Scanner → TokKind × Scanner
  | [] => (.k_end, [])
  | t :: rest => (t, rest)

/-- is_list_end_token (parser.cc lines 56-68). -/
def is_list_end_token : TokKind → Bool
  | .k_end => true
  | .k_rparen => true
  | .k_rbracket => true
  | .k_rbrace => true
  | _ => false

/-- is_semicolon_end_token (parser.cc lines 109-122). -/
def is_semicolon_end_token : TokKind → Bool
  | .k_end => true
  | .k_comma => true
  | .k_rparen => true
  | .k_rbracket => true
  | .k_rbrace => true
  | _ => false

/-- Parser-function abstraction: `parse_item` and everything below it are
external collaborators of the two embedded list parsers; the embedding
quantifies over them. -/
abbrev ParserFn := Scanner → Except Err (Phrase × Scanner)

/-- Loop of parse_semicolons (parser.cc lines 129-153) carrying the
accumulated `{item, separator}` pairs of the Semicolon_Phrase under
construction; the fuel meters loop iterations. -/
def parseSemicolonsLoop (parseItem : ParserFn) :
    Nat → List (Phrase × TokKind) → Scanner → Except Err (Phrase × Scanner)
  | 0, _, _ => .error .outOfFuel
  | fuel + 1, acc, s =>
    match parseItem s with
    | .error e => .error e
    | .ok (item, s₁) =>
      let (tok, s₂) := getTok s₁
      if tok = .k_semicolon then
        if is_semicolon_end_token (peek s₂) then
          .ok (.semicolon (acc ++ [(item, .k_semicolon)]), s₂)
        else
          parseSemicolonsLoop parseItem fuel (acc ++ [(item, .k_semicolon)]) s₂
      else if is_semicolon_end_token tok then
        if acc.isEmpty then .ok (item, s₁)
        else .ok (.semicolon (acc ++ [(item, .k_missing)]), s₁)
      else .error (.ptoken tok "syntax error in semicolon phrase")
  termination_by structural fuel _ _ => fuel

/-- parse_semicolons (parser.cc lines 129-153): one or more items separated
by semicolons, an optional trailing semicolon; a single item with no
trailing separator is returned unwrapped. -/
def parse_semicolons (parseItem : ParserFn) (fuel : Nat) (s : Scanner) :
    Except Err (Phrase × Scanner) :=
  parseSemicolonsLoop parseItem fuel [] s

/-- Loop of parse_commas (parser.cc lines 76-107). -/
def parseCommasLoop (parseItem : ParserFn) :
    Nat → List (Phrase × TokKind) → Scanner → Except Err (Phrase × Scanner)
  | 0, _, _ => .error .outOfFuel
  | fuel + 1, acc, s =>
    match parse_semicolons parseItem fuel s with
    | .error e => .error e
    | .ok (semis, s₁) =>
      let (tok, s₂) := getTok s₁
      if tok = .k_comma then
        if is_list_end_token (peek s₂) then
          .ok (.comma (acc ++ [(semis, .k_comma)]), s₂)
        else
          parseCommasLoop parseItem fuel (acc ++ [(semis, .k_comma)]) s₂
      else if is_list_end_token tok then
        if acc.isEmpty then .ok (semis, s₁)
        else .ok (.comma (acc ++ [(semis, .k_missing)]), s₁)
      else .error (.ptoken tok "syntax error in comma phrase")
  termination_by structural fuel _ _ => fuel

/-- parse_commas (parser.cc lines 76-107): an empty phrase when the next
token already ends the list, otherwise semicolon phrases separated by
commas; a single element with no trailing separator is returned unwrapped.
-/
def parse_commas (parseItem : ParserFn) (fuel : Nat) (s : Scanner) :
    Except Err (Phrase × Scanner) :=
  if is_list_end_token (peek s) then .ok (.empty, s)
  else parseCommasLoop parseItem fuel [] s

/-- Top-level analysis environment: the builtin environment alone, counters
at their base-constructor value 0. -/
def topEnv : Env := [⟨.builtin builtin_namespace, 0, 0⟩]

/-- Minimal stand-in for `parse_item` used to exercise the list parsers on
concrete token streams: consumes one `k_num` token as a numeral. -/
def toyItem : ParserFn := fun s =>
  match getTok s with
  | (.k_num, s₁) => .ok (.numeral 1, s₁)
  | (t, _) => .error (.ptoken t "missing expression")

/-- Proposition: every scope of the chain reports "absent" for the name
(each `single_lookup` of the `Environ::lookup` walk returns null). -/
def lookupMisses (loc : Nat) (a : Atom) : Env → Prop
  | [] => True
  | f :: rest => singleLookup loc a f rest = .ok none ∧ lookupMisses loc a rest

/-- Finding the key just inserted returns the new value. -/
theorem AtomMap.find_insert_self {α : Type} (m : AtomMap α) (k : Atom)
    (v : α) : (m.insert k v).find k = some v := by
  induction m with
  | nil => simp [AtomMap.insert, AtomMap.find]
  | cons hd t ih =>
    obtain ⟨k₁, v₁⟩ := hd
    by_cases h : k = k₁
    · simp [AtomMap.insert, AtomMap.find, h]
    · by_cases h₂ : atomLt k k₁ <;>
        simp [AtomMap.insert, AtomMap.find, h, h₂, ih]

/-- Inserting one key does not change what other keys find. -/
theorem AtomMap.find_insert_ne {α : Type} (m : AtomMap α) (k k' : Atom)
    (v : α) (h : k' ≠ k) : (m.insert k v).find k' = m.find k' := by
  induction m with
  | nil => simp [AtomMap.insert, AtomMap.find, h]
  | cons hd t ih =>
    obtain ⟨k₁, v₁⟩ := hd
    by_cases h₁ : k = k₁
    · subst h₁
      simp [AtomMap.insert, AtomMap.find, h]
    · by_cases h₃ : k' = k₁
      · subst h₃
        by_cases h₂ : atomLt k k' <;>
          simp [AtomMap.insert, AtomMap.find, h, h₁, h₂, ih]
      · by_cases h₂ : atomLt k k₁ <;>
          simp [AtomMap.insert, AtomMap.find, h, h₁, h₂, h₃, ih]

/-- Inserting a fresh key grows the map by one entry. -/
theorem AtomMap.length_insert_fresh {α : Type} (m : AtomMap α) (k : Atom)
    (v : α) (h : m.find k = none) :
    (m.insert k v).length = m.length + 1 := by
  induction m with
  | nil => rfl
  | cons hd t ih =>
    obtain ⟨k₁, v₁⟩ := hd
    by_cases h₁ : k = k₁
    · simp [AtomMap.find, h₁] at h
    · simp only [AtomMap.find, h₁, if_false] at h
      by_cases h₂ : atomLt k k₁ <;>
        simp [AtomMap.insert, h₁, h₂, ih h]

/-- A semicolon-phrase end token is never the semicolon itself. -/
theorem semicolon_end_ne_semicolon {k : TokKind}
    (h : is_semicolon_end_token k = true) : k ≠ .k_semicolon := by
  intro he
  subst he
  simp [is_semicolon_end_token] at h

/-- A comma-phrase end token is never the comma itself. -/
theorem list_end_ne_comma {k : TokKind}
    (h : is_list_end_token k = true) : k ≠ .k_comma := by
  intro he
  subst he
  simp [is_list_end_token] at h

/-- Agreement of the inlined `lookup` with the C++ loop shape: one step of
`Environ::lookup` is one `single_lookup` call followed by, on absence, the
walk over the parent chain. -/
theorem lookup_cons (loc : Nat) (a : Atom) (f : Frame) (rest : Env) :
    lookup loc a (f :: rest) =
      match singleLookup loc a f rest with
      | .error e => .error e
      | .ok (some (m, f₁, rest₁)) => .ok (m, f₁ :: rest₁)
      | .ok none =>
        match lookup loc a rest with
        | .error e => .error e
        | .ok (m, rest₁) => .ok (m, f :: rest₁) := by
  obtain ⟨d, ns, ms⟩ := f
  cases d with
  | argEnv names recursive nld nle =>
    simp only [lookup, singleLookup]
    cases h₁ : names.find a with
    | some slot => rfl
    | none =>
      cases recursive with
      | true => simp only [if_true]
      | false =>
        simp only [if_false]
        cases h₂ : nld.find a with
        | some slot => rfl
        | none =>
          cases lookup loc a rest with
          | error e => rfl
          | ok p =>
            obtain ⟨m, rest₁⟩ := p
            cases m with
            | op o => cases o <;> rfl
            | metafun src => rfl
  | builtin ns₁ =>
    simp only [lookup, singleLookup]
    cases h₁ : pureSingle loc a (.builtin ns₁) with
    | some m => rfl
    | none =>
      cases lookup loc a rest with
      | error e => rfl
      | ok p => rfl
  | bindingsEnv b =>
    simp only [lookup, singleLookup]
    cases h₁ : pureSingle loc a (.bindingsEnv b) with
    | some m => rfl
    | none =>
      cases lookup loc a rest with
      | error e => rfl
      | ok p => rfl
  | letEnv names =>
    simp only [lookup, singleLookup]
    cases h₁ : pureSingle loc a (.letEnv names) with
    | some m => rfl
    | none =>
      cases lookup loc a rest with
      | error e => rfl
      | ok p => rfl
  | forEnv name slot =>
    simp only [lookup, singleLookup]
    cases h₁ : pureSingle loc a (.forEnv name slot) with
    | some m => rfl
    | none =>
      cases lookup loc a rest with
      | error e => rfl
      | ok p => rfl

/-- Exhausting the chain: if every scope reports absent, `lookup` raises
"<name>: not defined". -/
theorem lookup_misses_not_defined {loc : Nat} {a : Atom} {env : Env}
    (h : lookupMisses loc a env) :
    lookup loc a env = .error (.diag (.ident loc a) (a ++ ": not defined")) := by
  induction env with
  | nil => rfl
  | cons f rest ih =>
    rw [lookup_cons, h.1, ih h.2]

/-- Bindings already collected by `letPhase1` survive to the final map:
later iterations only insert fresh names (duplicates raise instead). -/
theorem letPhase1_preserves :
    ∀ (args : List (Phrase × TokKind)) (s : Nat)
      (acc bmap : AtomMap (Nat × Phrase)),
    letPhase1 args s acc = .ok bmap →
    ∀ (k : Atom) (v : Nat × Phrase), acc.find k = some v →
    bmap.find k = some v := by
  intro args
  induction args with
  | nil =>
    intro s acc bmap h k v hk
    simp only [letPhase1] at h
    cases h
    exact hk
  | cons hd rest ih =>
    intro s acc bmap h k v hk
    obtain ⟨ph, sep⟩ := hd
    simp only [letPhase1] at h
    cases hd₁ : analyzeDef ph with
    | error e => rw [hd₁] at h; cases h
    | ok od =>
      rw [hd₁] at h
      cases od with
      | none => cases h
      | some d =>
        cases hacc : acc.find d.name with
        | some w => simp [hacc] at h
        | none =>
          simp only [hacc, Option.isSome_none, Bool.false_eq_true,
            if_false] at h
          have hk₂ : (acc.insert d.name (s, d.definiens)).find k = some v := by
            rw [AtomMap.find_insert_ne]
            · exact hk
            · intro he
              rw [he, hacc] at hk
              cases hk
          exact ih (s + 1) _ bmap h k v hk₂

/-- Slot allocation of `letPhase1`: the i-th argument (textual order) is a
definition whose name maps to slot `s + i` with its definiens, so the
bindings get consecutive slots starting at `s` in textual order. -/
theorem letPhase1_slots :
    ∀ (args : List (Phrase × TokKind)) (s : Nat)
      (acc bmap : AtomMap (Nat × Phrase)),
    letPhase1 args s acc = .ok bmap →
    ∀ (i : Nat) (hi : i < args.length),
    ∃ d, analyzeDef (args.get ⟨i, hi⟩).1 = .ok (some d) ∧
         bmap.find d.name = some (s + i, d.definiens) := by
  intro args
  induction args with
  | nil =>
    intro s acc bmap h i hi
    exact absurd hi (by simp)
  | cons hd rest ih =>
    intro s acc bmap h i hi
    obtain ⟨ph, sep⟩ := hd
    simp only [letPhase1] at h
    cases hd₁ : analyzeDef ph with
    | error e => rw [hd₁] at h; cases h
    | ok od =>
      rw [hd₁] at h
      cases od with
      | none => cases h
      | some d =>
        cases hacc : acc.find d.name with
        | some w => simp [hacc] at h
        | none =>
          simp only [hacc, Option.isSome_none, Bool.false_eq_true,
            if_false] at h
          cases i with
          | zero =>
            refine ⟨d, hd₁, ?_⟩
            exact letPhase1_preserves rest (s + 1) _ bmap h d.name _
              (AtomMap.find_insert_self acc d.name (s, d.definiens))
          | succ j =>
            have hj : j < rest.length := by
              simpa [Nat.succ_lt_succ_iff] using hi
            obtain ⟨d₁, hd₂, hfind⟩ := ih (s + 1) _ bmap h j hj
            refine ⟨d₁, by simpa using hd₂, ?_⟩
            have harith : s + 1 + j = s + (j + 1) := by omega
            rw [harith] at hfind
            exact hfind

/-- Size of the map produced by `letPhase1`: one fresh entry per argument. -/
theorem letPhase1_size :
    ∀ (args : List (Phrase × TokKind)) (s : Nat)
      (acc bmap : AtomMap (Nat × Phrase)),
    letPhase1 args s acc = .ok bmap →
    bmap.length = acc.length + args.length := by
  intro args
  induction args with
  | nil =>
    intro s acc bmap h
    simp only [letPhase1] at h
    cases h
    simp
  | cons hd rest ih =>
    intro s acc bmap h
    obtain ⟨ph, sep⟩ := hd
    simp only [letPhase1] at h
    cases hd₁ : analyzeDef ph with
    | error e => rw [hd₁] at h; cases h
    | ok od =>
      rw [hd₁] at h
      cases od with
      | none => cases h
      | some d =>
        cases hacc : acc.find d.name with
        | some w => simp [hacc] at h
        | none =>
          simp only [hacc, Option.isSome_none, Bool.false_eq_true,
            if_false] at h
          have := ih (s + 1) _ bmap h
          rw [AtomMap.length_insert_fresh acc d.name (s, d.definiens) hacc]
            at this
          simp only [List.length_cons]
          omega

/-- Claim C7: `Definition_Phrase::analyze_def` yields
`Definition{name=id, definiens=right}` when the left side is an identifier;
for a Call_Phrase left side with identifier function `f` it yields
`Definition{name=f, definiens=Lambda_Phrase(args, right)}` (the
`f(x)=body` sugar), raising "not an identifier" when the call's function is
not an identifier; any other left side raises "invalid definiendum". -/
theorem claim_C7 :
    (∀ (loc : Nat) (a : Atom) (right : Phrase),
      analyzeDef (.definition (.ident loc a) right) = .ok (some ⟨loc, a, right⟩))
    ∧
    (∀ (loc : Nat) (a : Atom) (cargs right : Phrase),
      analyzeDef (.definition (.call (.ident loc a) cargs) right) =
        .ok (some ⟨loc, a, .lambda cargs right false⟩))
    ∧
    (∀ (fn cargs right : Phrase), (∀ loc a, fn ≠ .ident loc a) →
      analyzeDef (.definition (.call fn cargs) right) =
        .error (.diag fn "not an identifier"))
    ∧
    (∀ (left right : Phrase), (∀ loc a, left ≠ .ident loc a) →
      (∀ f g, left ≠ .call f g) →
      analyzeDef (.definition left right) =
        .error (.diag left "invalid definiendum")) := by
  refine ⟨fun loc a right => rfl, fun loc a cargs right => rfl, ?_, ?_⟩
  · intro fn cargs right h
    cases fn <;> first | rfl | exact absurd rfl (h _ _)
  · intro left right h₁ h₂
    cases left <;>
      first
      | rfl
      | exact absurd rfl (h₁ _ _)
      | exact absurd rfl (h₂ _ _)

/-- Witness for claim C7: the four cases at concrete phrases. -/
theorem claim_C7_witness :
    analyzeDef (.definition (.ident 0 "x") (.numeral 1)) =
      .ok (some ⟨0, "x", .numeral 1⟩) ∧
    analyzeDef (.definition
        (.call (.ident 0 "f") (.paren [(.ident 1 "x", .k_missing)]))
        (.numeral 2)) =
      .ok (some ⟨0, "f",
        .lambda (.paren [(.ident 1 "x", .k_missing)]) (.numeral 2) false⟩) ∧
    analyzeDef (.definition (.call (.numeral 3) (.ident 1 "x")) (.numeral 2)) =
      .error (.diag (.numeral 3) "not an identifier") ∧
    analyzeDef (.definition (.numeral 7) (.numeral 2)) =
      .error (.diag (.numeral 7) "invalid definiendum") :=
  ⟨claim_C7.1 0 "x" (.numeral 1),
   claim_C7.2.1 0 "f" (.paren [(.ident 1 "x", .k_missing)]) (.numeral 2),
   claim_C7.2.2.1 (.numeral 3) (.ident 1 "x") (.numeral 2)
     (fun _ _ h => Phrase.noConfusion h),
   claim_C7.2.2.2 (.numeral 7) (.numeral 2)
     (fun _ _ h => Phrase.noConfusion h)
     (fun _ _ h => Phrase.noConfusion h)⟩

/-- Claim C8: `Environ::lookup` resolves an identifier by trying
`single_lookup` on each scope innermost-outward along the parent chain and
returning the first non-absent result (the own frame and parent chain as
that scope left them); when every scope — the builtin environment included,
whose `single_lookup` converts a found builtin via `to_meaning` — reports
absent, it raises "<name>: not defined". -/
theorem claim_C8 :
    (∀ (loc : Nat) (a : Atom),
      lookup loc a [] = .error (.diag (.ident loc a) (a ++ ": not defined")))
    ∧
    (∀ (loc : Nat) (a : Atom) (f : Frame) (rest : Env) (m : Meaning)
       (f₁ : Frame) (rest₁ : Env),
      singleLookup loc a f rest = .ok (some (m, f₁, rest₁)) →
      lookup loc a (f :: rest) = .ok (m, f₁ :: rest₁))
    ∧
    (∀ (loc : Nat) (a : Atom) (f : Frame) (rest : Env),
      singleLookup loc a f rest = .ok none →
      lookup loc a (f :: rest) =
        match lookup loc a rest with
        | .error e => .error e
        | .ok (m, rest₁) => .ok (m, f :: rest₁))
    ∧
    (∀ (loc : Nat) (a : Atom) (env : Env), lookupMisses loc a env →
      lookup loc a env = .error (.diag (.ident loc a) (a ++ ": not defined")))
    ∧
    (∀ (loc : Nat) (a : Atom) (ns : AtomMap Builtin) (n m : Nat) (rest : Env),
      singleLookup loc a ⟨.builtin ns, n, m⟩ rest =
        .ok ((ns.find a).map
          fun b => (b.to_meaning loc a, (⟨.builtin ns, n, m⟩ : Frame), rest))) := by
  refine ⟨fun loc a => rfl, ?_, ?_, ?_, ?_⟩
  · intro loc a f rest m f₁ rest₁ h
    rw [lookup_cons, h]
  · intro loc a f rest h
    rw [lookup_cons, h]
  · intro loc a env h
    exact lookup_misses_not_defined h
  · intro loc a ns n m rest
    simp only [singleLookup, pureSingle]
    cases ns.find a <;> rfl

/-- Witness for claim C8: the unbound identifier `foo` at top level raises
"foo: not defined"; the builtin `pi` resolves via `to_meaning`. -/
theorem claim_C8_witness :
    lookup 7 "foo" topEnv =
      .error (.diag (.ident 7 "foo") "foo: not defined") ∧
    singleLookup 3 "pi" ⟨.builtin builtin_namespace, 0, 0⟩ [] =
      .ok (((builtin_namespace.find "pi").map
        fun b => (b.to_meaning 3 "pi",
          (⟨.builtin builtin_namespace, 0, 0⟩ : Frame), ([] : Env)))) :=
  ⟨claim_C8.2.2.2.1 7 "foo" topEnv ⟨rfl, trivial⟩,
   claim_C8.2.2.2.2 3 "pi" builtin_namespace 0 0 []⟩

/-- Claim C5: in every construct with a bindings dictionary — module
(`Bindings::add_definition`), record (`analyze_definition`), and `let`
(phase 1 of `Let_Phrase::analyze`) — a definition whose name is already
present raises "<name>: multiply defined" with the diagnostic at the new
(second) definition's name, whatever order the two definitions appear in;
concretely, the module, record and let forms of a duplicate `a` all fail at
the second occurrence's identifier. -/
theorem claim_C5 :
    (∀ (b : Bindings) (d : Definition), (b.dict.find d.name).isSome = true →
      b.add_definition d =
        .error (.diag (.ident d.nameLoc d.name) (d.name ++ ": multiply defined")))
    ∧
    (∀ (fuel : Nat) (ph : Phrase) (rest : List Phrase) (fields : AtomMap Op)
       (env : Env) (d : Definition),
      analyzeDef ph = .ok (some d) → (fields.find d.name).isSome = true →
      recordLoop (fuel + 1) (ph :: rest) fields env =
        .error (.diag (.ident d.nameLoc d.name) (d.name ++ ": multiply defined")))
    ∧
    (∀ (ph : Phrase) (sep : TokKind) (rest : List (Phrase × TokKind))
       (slot : Nat) (acc : AtomMap (Nat × Phrase)) (d : Definition),
      analyzeDef ph = .ok (some d) → (acc.find d.name).isSome = true →
      letPhase1 ((ph, sep) :: rest) slot acc =
        .error (.diag (.ident d.nameLoc d.name) (d.name ++ ": multiply defined")))
    ∧
    (analyze 10 (.module (.semicolon
        [(.definition (.ident 1 "a") (.numeral 1), .k_semicolon),
         (.definition (.ident 2 "a") (.numeral 2), .k_missing)])) topEnv =
      .error (.diag (.ident 2 "a") "a: multiply defined"))
    ∧
    (analyze 10 (.brace
        [(.definition (.ident 1 "a") (.numeral 1), .k_comma),
         (.definition (.ident 2 "a") (.numeral 2), .k_missing)]) topEnv =
      .error (.diag (.ident 2 "a") "a: multiply defined"))
    ∧
    (analyze 10 (.brace
        [(.definition (.ident 2 "a") (.numeral 2), .k_comma),
         (.definition (.ident 1 "a") (.numeral 1), .k_missing)]) topEnv =
      .error (.diag (.ident 1 "a") "a: multiply defined"))
    ∧
    (analyze 10 (.let_
        [(.definition (.ident 1 "a") (.numeral 1), .k_comma),
         (.definition (.ident 2 "a") (.numeral 2), .k_missing)]
        (.ident 3 "a")) topEnv =
      .error (.diag (.ident 2 "a") "a: multiply defined")) := by
  refine ⟨?_, ?_, ?_, rfl, rfl, rfl, rfl⟩
  · intro b d h
    simp [Bindings.add_definition, h]
  · intro fuel ph rest fields env d h₁ h₂
    simp only [recordLoop]
    rw [h₁]
    simp [h₂]
  · intro ph sep rest slot acc d h₁ h₂
    simp only [letPhase1]
    rw [h₁]
    simp [h₂]

/-- Witness for claim C5: the general duplicate-rejection conjuncts applied
to concrete states in both insertion orders. -/
theorem claim_C5_witness :
    (Bindings.add_definition ⟨[("a", 0)], 1, [.numeral 1]⟩ ⟨5, "a", .numeral 2⟩ =
      .error (.diag (.ident 5 "a") "a: multiply defined")) ∧
    (recordLoop 3 [.definition (.ident 6 "b") (.numeral 2)]
        [("b", .constant (.num 1))] topEnv =
      .error (.diag (.ident 6 "b") "b: multiply defined")) ∧
    (letPhase1 [(.definition (.ident 7 "c") (.numeral 2), .k_missing)] 4
        [("c", (0, .numeral 1))] =
      .error (.diag (.ident 7 "c") "c: multiply defined")) :=
  ⟨claim_C5.1 ⟨[("a", 0)], 1, [.numeral 1]⟩ ⟨5, "a", .numeral 2⟩ rfl,
   claim_C5.2.1 2 (.definition (.ident 6 "b") (.numeral 2)) []
     [("b", .constant (.num 1))] topEnv ⟨6, "b", .numeral 2⟩ rfl rfl,
   claim_C5.2.2.1 (.definition (.ident 7 "c") (.numeral 2)) .k_missing [] 4
     [("c", (0, .numeral 1))] ⟨7, "c", .numeral 2⟩ rfl rfl⟩

/-- Counterexample for claim C6: a `.` whose right side is a bracketed list
of two elements raises "not an expression" (at the whole dot phrase), not
"invalid expression after the dot" as the claim states for every
non-identifier, non-single-element case. -/
theorem claim_C6_counterexample :
    analyze 8 (.binary .k_dot (.ident 0 "a")
        (.bracket [(.numeral 1, .k_missing), (.numeral 2, .k_missing)]))
      topEnv =
    .error (.diag (.binary .k_dot (.ident 0 "a")
        (.bracket [(.numeral 1, .k_missing), (.numeral 2, .k_missing)]))
      "not an expression") := rfl

/-- Claim C6 (amended): analyzing a Binary_Phrase with operator `.` yields
`Dot_Expr(lhs, atom)` for an identifier right side and `At_Expr(lhs, index)`
for a bracketed list of exactly one un-separated element; a bracketed list
of any other shape raises "not an expression" at the whole dot phrase (with
the index analyzed before the left operand in the At_Expr case); every other
right side raises "invalid expression after the dot" at the right side. -/
theorem claim_C6_amended :
    (∀ (fuel : Nat) (env : Env) (lhs : Phrase) (loc : Nat) (a : Atom)
       (l : Op) (env₁ : Env),
      analyzeOp fuel lhs env = .ok (l, env₁) →
      analyze (fuel + 1) (.binary .k_dot lhs (.ident loc a)) env =
        .ok (.op (.dot_expr l a), env₁))
    ∧
    (∀ (fuel : Nat) (env : Env) (lhs ix : Phrase) (index : Op) (env₁ : Env)
       (l : Op) (env₂ : Env),
      analyzeOp fuel ix env = .ok (index, env₁) →
      analyzeOp fuel lhs env₁ = .ok (l, env₂) →
      analyze (fuel + 1) (.binary .k_dot lhs (.bracket [(ix, .k_missing)])) env =
        .ok (.op (.at_expr l index), env₂))
    ∧
    (∀ (fuel : Nat) (env : Env) (lhs : Phrase)
       (args : List (Phrase × TokKind)),
      (∀ ix, args ≠ [(ix, .k_missing)]) →
      analyze (fuel + 1) (.binary .k_dot lhs (.bracket args)) env =
        .error (.diag (.binary .k_dot lhs (.bracket args)) "not an expression"))
    ∧
    (∀ (fuel : Nat) (env : Env) (lhs right : Phrase),
      (∀ loc a, right ≠ .ident loc a) → (∀ args, right ≠ .bracket args) →
      analyze (fuel + 1) (.binary .k_dot lhs right) env =
        .error (.diag right "invalid expression after \x27.\x27")) := by
  refine ⟨?_, ?_, ?_, ?_⟩
  · intro fuel env lhs loc a l env₁ h
    simp only [analyze, h]
  · intro fuel env lhs ix index env₁ l env₂ h₁ h₂
    simp only [analyze, h₁, h₂]
  · intro fuel env lhs args h
    cases args with
    | nil => rfl
    | cons hd tl =>
      obtain ⟨ix, sep⟩ := hd
      cases tl with
      | cons hd₂ tl₂ => cases sep <;> rfl
      | nil =>
        cases sep <;> first | exact absurd rfl (h ix) | rfl
  · intro fuel env lhs right h₁ h₂
    cases right <;>
      first
      | rfl
      | exact absurd rfl (h₁ _ _)
      | exact absurd rfl (h₂ _)

/-- Witness for claim C6 (amended): the four behaviors at concrete inputs.
-/
theorem claim_C6_witness :
    (analyze 3 (.binary .k_dot (.numeral 1) (.ident 4 "fld")) topEnv =
      .ok (.op (.dot_expr (.constant (.num 1)) "fld"), topEnv)) ∧
    (analyze 3 (.binary .k_dot (.numeral 1)
        (.bracket [(.numeral 2, .k_missing)])) topEnv =
      .ok (.op (.at_expr (.constant (.num 1)) (.constant (.num 2))), topEnv)) ∧
    (analyze 3 (.binary .k_dot (.numeral 1)
        (.bracket [(.numeral 2, .k_comma)])) topEnv =
      .error (.diag (.binary .k_dot (.numeral 1)
        (.bracket [(.numeral 2, .k_comma)])) "not an expression")) ∧
    (analyze 3 (.binary .k_dot (.numeral 1) (.numeral 2)) topEnv =
      .error (.diag (.numeral 2) "invalid expression after \x27.\x27")) :=
  ⟨claim_C6_amended.1 2 topEnv (.numeral 1) 4 "fld" (.constant (.num 1))
     topEnv rfl,
   claim_C6_amended.2.1 2 topEnv (.numeral 1) (.numeral 2)
     (.constant (.num 2)) topEnv (.constant (.num 1)) topEnv rfl rfl,
   claim_C6_amended.2.2.1 2 topEnv (.numeral 1) [(.numeral 2, .k_comma)]
     (fun ix h => by cases h),
   claim_C6_amended.2.2.2 2 topEnv (.numeral 1) (.numeral 2)
     (fun _ _ h => Phrase.noConfusion h)
     (fun _ h => Phrase.noConfusion h)⟩

/-- Claim C10: lambda parameter extraction raises "not a parameter" exactly
when the left side is neither an identifier nor a Paren_Phrase, or when some
element of the Paren_Phrase is not an identifier (the first such element is
reported); duplicate parameter names pass with no diagnostic — a repeated
name is re-bound to the next slot while `nargs` counts distinct names — so
`(x,x)->x` succeeds as `Lambda_Expr` with `nargs = 1` and body `Arg_Ref(1)`,
a slot outside `[0, nargs)`. -/
theorem claim_C10 :
    (∀ (left : Phrase), (∀ loc a, left ≠ .ident loc a) →
      (∀ args, left ≠ .paren args) →
      lambdaParams left = .error (.diag left "not a parameter"))
    ∧
    (∀ args, lambdaParams (.paren args) =
      lambdaParamsList args AtomMap.empty 0)
    ∧
    (∀ (pre : List (Phrase × TokKind)) (ph : Phrase) (sep : TokKind)
       (post : List (Phrase × TokKind)) (params : AtomMap Nat) (slot : Nat),
      (∀ p ∈ pre, ∃ loc a, p.1 = Phrase.ident loc a) →
      (∀ loc a, ph ≠ .ident loc a) →
      lambdaParamsList (pre ++ (ph, sep) :: post) params slot =
        .error (.diag ph "not a parameter"))
    ∧
    (∀ (args : List (Phrase × TokKind)) (params : AtomMap Nat) (slot : Nat),
      (∀ p ∈ args, ∃ loc a, p.1 = Phrase.ident loc a) →
      ∃ r, lambdaParamsList args params slot = .ok r)
    ∧
    (analyze 6 (.lambda
        (.paren [(.ident 0 "x", .k_comma), (.ident 1 "x", .k_missing)])
        (.ident 2 "x") false) [⟨.builtin [], 0, 0⟩] =
      .ok (.op (.lambda_expr (.arg_ref 1) [] 1 1), [⟨.builtin [], 0, 0⟩]))
    ∧ ¬(1 < 1) := by
  refine ⟨?_, fun args => rfl, ?_, ?_, rfl, by omega⟩
  · intro left h₁ h₂
    cases left <;>
      first
      | rfl
      | exact absurd rfl (h₁ _ _)
      | exact absurd rfl (h₂ _)
  · intro pre
    induction pre with
    | nil =>
      intro ph sep post params slot _ h₂
      cases ph <;> first | rfl | exact absurd rfl (h₂ _ _)
    | cons hd tl ih =>
      intro ph sep post params slot h₁ h₂
      obtain ⟨loc, a, hident⟩ := h₁ hd (List.mem_cons_self hd tl)
      obtain ⟨p₁, p₂⟩ := hd
      simp only at hident
      subst hident
      simp only [List.cons_append, lambdaParamsList]
      exact ih ph sep post (params.insert a slot) (slot + 1)
        (fun p hp => h₁ p (List.mem_cons_of_mem _ hp)) h₂
  · intro args
    induction args with
    | nil => intro params slot _; exact ⟨(params, slot), rfl⟩
    | cons hd tl ih =>
      intro params slot h₁
      obtain ⟨loc, a, hident⟩ := h₁ hd (List.mem_cons_self hd tl)
      obtain ⟨p₁, p₂⟩ := hd
      simp only at hident
      subst hident
      simp only [lambdaParamsList]
      exact ih (params.insert a slot) (slot + 1)
        (fun p hp => h₁ p (List.mem_cons_of_mem _ hp))

/-- Witness for claim C10: the error cases at concrete inputs — a numeral
left side, and a paren list whose second element is a numeral — and success
of an all-identifier list. -/
theorem claim_C10_witness :
    (lambdaParams (.numeral 1) = .error (.diag (.numeral 1) "not a parameter")) ∧
    (lambdaParamsList
        [(.ident 0 "x", .k_comma), (.numeral 2, .k_missing)]
        AtomMap.empty 0 =
      .error (.diag (.numeral 2) "not a parameter")) ∧
    (∃ r, lambdaParamsList
        [(.ident 0 "x", .k_comma), (.ident 1 "y", .k_missing)]
        AtomMap.empty 0 = .ok r) :=
  ⟨claim_C10.1 (.numeral 1)
     (fun _ _ h => Phrase.noConfusion h)
     (fun _ h => Phrase.noConfusion h),
   claim_C10.2.2.1 [(.ident 0 "x", .k_comma)] (.numeral 2) .k_missing []
     AtomMap.empty 0
     (fun p hp => ⟨0, "x", by
        simp only [List.mem_singleton] at hp
        rw [hp]⟩)
     (fun _ _ h => Phrase.noConfusion h),
   claim_C10.2.2.2.1 [(.ident 0 "x", .k_comma), (.ident 1 "y", .k_missing)]
     AtomMap.empty 0
     (fun p hp => by
        cases hp with
        | head => exact ⟨0, "x", rfl⟩
        | tail _ hp₂ =>
          cases hp₂ with
          | head => exact ⟨1, "y", rfl⟩
          | tail _ hp₃ => cases hp₃)⟩

/-- Claim C9: the parser returns a comma list or semicolon list of exactly
one element with a missing trailing separator as the element phrase itself,
not wrapped in a Comma_Phrase or Semicolon_Phrase: whatever the item parser
produced, if the next token ends the list with no separator consumed, the
element is returned unwrapped with the scanner untouched. -/
theorem claim_C9 :
    (∀ (parseItem : ParserFn) (fuel : Nat) (s s₁ : Scanner) (ph : Phrase),
      parseItem s = .ok (ph, s₁) →
      is_semicolon_end_token (peek s₁) = true →
      parse_semicolons parseItem (fuel + 1) s = .ok (ph, s₁))
    ∧
    (∀ (parseItem : ParserFn) (fuel : Nat) (s s₁ : Scanner) (ph : Phrase),
      is_list_end_token (peek s) = false →
      parse_semicolons parseItem fuel s = .ok (ph, s₁) →
      is_list_end_token (peek s₁) = true →
      parse_commas parseItem (fuel + 1) s = .ok (ph, s₁)) := by
  constructor
  · intro parseItem fuel s s₁ ph h₁ h₂
    have hne : peek s₁ ≠ .k_semicolon := semicolon_end_ne_semicolon h₂
    show parseSemicolonsLoop parseItem (fuel + 1) [] s = .ok (ph, s₁)
    simp only [parseSemicolonsLoop, h₁]
    cases s₁ with
    | nil =>
      simp only [peek] at h₂ hne
      simp [getTok, hne, h₂]
    | cons t rest =>
      simp only [peek] at h₂ hne
      simp [getTok, hne, h₂]
  · intro parseItem fuel s s₁ ph h₀ h₁ h₂
    have hne : peek s₁ ≠ .k_comma := list_end_ne_comma h₂
    show parse_commas parseItem (fuel + 1) s = .ok (ph, s₁)
    simp only [parse_commas, h₀, Bool.false_eq_true, if_false]
    simp only [parseCommasLoop, h₁]
    cases s₁ with
    | nil =>
      simp only [peek] at h₂ hne
      simp [getTok, hne, h₂]
    | cons t rest =>
      simp only [peek] at h₂ hne
      simp [getTok, hne, h₂]

/-- Witness for claim C9: with a one-token item parser, a single numeral
followed by end-of-input parses as the numeral itself at both levels. -/
theorem claim_C9_witness :
    parse_semicolons toyItem 3 [.k_num] = .ok (.numeral 1, []) ∧
    parse_commas toyItem 3 [.k_num] = .ok (.numeral 1, []) :=
  ⟨claim_C9.1 toyItem 2 [.k_num] [] (.numeral 1) rfl rfl,
   claim_C9.2 toyItem 2 [.k_num] [] (.numeral 1) rfl
     (claim_C9.1 toyItem 1 [.k_num] [] (.numeral 1) rfl rfl) rfl⟩

/-- Counterexample for claim C1: a Lambda_Phrase with the `recursive_` flag
set (exactly the state `Bindings::add_definition` creates for module
function bindings) analyzes successfully with an empty nonlocals list even
though its body uses a non-constant outer reference — here the module
binding `g`, which resolves through the enclosing `Bindings::Environ` to
`Module_Ref(0)` and is never captured. -/
theorem claim_C1_counterexample :
    analyze 6 (.lambda (.ident 0 "x") (.ident 1 "g") true)
        [⟨.bindingsEnv ⟨[("g", 0)], 1, [.numeral 1]⟩, 0, 0⟩] =
      .ok (.op (.lambda_expr (.module_ref 0) [] 1 1),
        [⟨.bindingsEnv ⟨[("g", 0)], 1, [.numeral 1]⟩, 0, 0⟩]) := rfl

/-- Claim C1 (amended): for a Lambda_Phrase analyzed in non-recursive mode,
the nonlocals list contains exactly the non-constant Operations resolved for
outer references used in its body, one entry per distinct captured name in
order of first use: a first use appends the parent's Operation at the end
of the capture list and returns `Nonlocal_Ref` of its index, a repeated use
returns the recorded slot without growing the list, an outer reference that
resolves to a `Constant` is returned verbatim and never captured, and
`Lambda_Phrase::analyze` starts from an empty capture state and emits the
final capture list as the `Lambda_Expr`'s nonlocals.  A Lambda_Phrase with
the `recursive_` flag set performs no capture at all: its arg scope reports
absent for every non-parameter name so resolution falls through to the
enclosing scopes unchanged. -/
theorem claim_C1_amended :
    (∀ (loc : Nat) (a : Atom) (names nld : AtomMap Nat) (nle : List Op)
       (ns ms : Nat) (rest : Env) (v : Value) (rest₁ : Env),
      names.find a = none → nld.find a = none →
      lookup loc a rest = .ok (.op (.constant v), rest₁) →
      singleLookup loc a ⟨.argEnv names false nld nle, ns, ms⟩ rest =
        .ok (some (.op (.constant v),
          (⟨.argEnv names false nld nle, ns, ms⟩ : Frame), rest₁)))
    ∧
    (∀ (loc : Nat) (a : Atom) (names nld : AtomMap Nat) (nle : List Op)
       (ns ms : Nat) (rest : Env) (e : Op) (rest₁ : Env),
      names.find a = none → nld.find a = none →
      lookup loc a rest = .ok (.op e, rest₁) →
      (∀ v, e ≠ .constant v) →
      singleLookup loc a ⟨.argEnv names false nld nle, ns, ms⟩ rest =
        .ok (some (.op (.nonlocal_ref nle.length),
          (⟨.argEnv names false (nld.insert a nle.length) (nle ++ [e]),
            ns, ms⟩ : Frame), rest₁)))
    ∧
    (∀ (loc : Nat) (a : Atom) (names nld : AtomMap Nat) (nle : List Op)
       (ns ms : Nat) (rest : Env) (slot : Nat),
      names.find a = none → nld.find a = some slot →
      singleLookup loc a ⟨.argEnv names false nld nle, ns, ms⟩ rest =
        .ok (some (.op (.nonlocal_ref slot),
          (⟨.argEnv names false nld nle, ns, ms⟩ : Frame), rest)))
    ∧
    (∀ (loc : Nat) (a : Atom) (names nld : AtomMap Nat) (nle : List Op)
       (rec : Bool) (ns ms : Nat) (rest : Env) (slot : Nat),
      names.find a = some slot →
      singleLookup loc a ⟨.argEnv names rec nld nle, ns, ms⟩ rest =
        .ok (some (.op (.arg_ref slot),
          (⟨.argEnv names rec nld nle, ns, ms⟩ : Frame), rest)))
    ∧
    (∀ (loc : Nat) (a : Atom) (names nld : AtomMap Nat) (nle : List Op)
       (ns ms : Nat) (rest : Env),
      names.find a = none →
      singleLookup loc a ⟨.argEnv names true nld nle, ns, ms⟩ rest = .ok none)
    ∧
    (∀ (fuel : Nat) (left right : Phrase) (rec : Bool) (env : Env)
       (params : AtomMap Nat) (k : Nat) (body : Op) (names₁ : AtomMap Nat)
       (rec₁ : Bool) (nld₁ : AtomMap Nat) (nle₁ : List Op) (ns₁ ms₁ : Nat)
       (rest₁ : Env),
      lambdaParams left = .ok (params, k) →
      analyzeOp fuel right
          (⟨.argEnv params rec AtomMap.empty [], params.size, params.size⟩ ::
            env) =
        .ok (body, ⟨.argEnv names₁ rec₁ nld₁ nle₁, ns₁, ms₁⟩ :: rest₁) →
      analyze (fuel + 1) (.lambda left right rec) env =
        .ok (.op (.lambda_expr body nle₁ params.size ms₁), rest₁)) := by
  refine ⟨?_, ?_, ?_, ?_, ?_, ?_⟩
  · intro loc a names nld nle ns ms rest v rest₁ hn hd hl
    simp [singleLookup, hn, hd, hl]
  · intro loc a names nld nle ns ms rest e rest₁ hn hd hl hnc
    cases e <;>
      first
      | exact absurd rfl (hnc _)
      | simp [singleLookup, hn, hd, hl]
  · intro loc a names nld nle ns ms rest slot hn hd
    simp [singleLookup, hn, hd]
  · intro loc a names nld nle rec ns ms rest slot hn
    simp [singleLookup, hn]
  · intro loc a names nld nle ns ms rest hn
    simp [singleLookup, hn]
  · intro fuel left right rec env params k body names₁ rec₁ nld₁ nle₁ ns₁
      ms₁ rest₁ h₁ h₂
    simp only [analyze, h₁, h₂]

/-- Witness for claim C1 (amended): constant inlining of the builtin `pi`,
first and repeated capture of a `let` binding, parameter hit, recursive
fall-through, and emission of the capture list for `x -> x`. -/
theorem claim_C1_witness :
    (singleLookup 0 "pi" ⟨.argEnv [("x", 0)] false [] [], 1, 1⟩
        [⟨.builtin builtin_namespace, 0, 0⟩] =
      .ok (some (.op (.constant (.builtinNum "pi")),
        (⟨.argEnv [("x", 0)] false [] [], 1, 1⟩ : Frame),
        [⟨.builtin builtin_namespace, 0, 0⟩]))) ∧
    (singleLookup 0 "y" ⟨.argEnv [("x", 0)] false [] [], 1, 1⟩
        [⟨.letEnv [("y", (0, .numeral 1))], 1, 1⟩] =
      .ok (some (.op (.nonlocal_ref 0),
        (⟨.argEnv [("x", 0)] false [("y", 0)] [.let_ref 0], 1, 1⟩ : Frame),
        [⟨.letEnv [("y", (0, .numeral 1))], 1, 1⟩]))) ∧
    (singleLookup 0 "y" ⟨.argEnv [("x", 0)] false [("y", 5)] [], 1, 1⟩
        [⟨.letEnv [("y", (0, .numeral 1))], 1, 1⟩] =
      .ok (some (.op (.nonlocal_ref 5),
        (⟨.argEnv [("x", 0)] false [("y", 5)] [], 1, 1⟩ : Frame),
        [⟨.letEnv [("y", (0, .numeral 1))], 1, 1⟩]))) ∧
    (singleLookup 0 "x" ⟨.argEnv [("x", 0)] false [] [], 1, 1⟩ [] =
      .ok (some (.op (.arg_ref 0),
        (⟨.argEnv [("x", 0)] false [] [], 1, 1⟩ : Frame), []))) ∧
    (singleLookup 0 "y" ⟨.argEnv [("x", 0)] true [] [], 1, 1⟩
        [⟨.letEnv [("y", (0, .numeral 1))], 1, 1⟩] = .ok none) ∧
    (analyze 5 (.lambda (.ident 0 "x") (.ident 1 "x") false)
        [⟨.builtin [], 0, 0⟩] =
      .ok (.op (.lambda_expr (.arg_ref 0) [] 1 1), [⟨.builtin [], 0, 0⟩])) :=
  ⟨claim_C1_amended.1 0 "pi" [("x", 0)] [] [] 1 1
     [⟨.builtin builtin_namespace, 0, 0⟩] (.builtinNum "pi")
     [⟨.builtin builtin_namespace, 0, 0⟩] rfl rfl rfl,
   claim_C1_amended.2.1 0 "y" [("x", 0)] [] [] 1 1
     [⟨.letEnv [("y", (0, .numeral 1))], 1, 1⟩] (.let_ref 0)
     [⟨.letEnv [("y", (0, .numeral 1))], 1, 1⟩] rfl rfl rfl
     (fun _ h => Op.noConfusion h),
   claim_C1_amended.2.2.1 0 "y" [("x", 0)] [("y", 5)] [] 1 1
     [⟨.letEnv [("y", (0, .numeral 1))], 1, 1⟩] 5 rfl rfl,
   claim_C1_amended.2.2.2.1 0 "x" [("x", 0)] [] [] false 1 1 [] 0 rfl,
   claim_C1_amended.2.2.2.2.1 0 "y" [("x", 0)] [] [] 1 1
     [⟨.letEnv [("y", (0, .numeral 1))], 1, 1⟩] rfl,
   claim_C1_amended.2.2.2.2.2 4 (.ident 0 "x") (.ident 1 "x") false
     [⟨.builtin [], 0, 0⟩] [("x", 0)] 1 (.arg_ref 0) [("x", 0)] false [] []
     1 1 [⟨.builtin [], 0, 0⟩] rfl rfl⟩

/-- Claim C2: inside a module body's environment,
`Bindings::Environ::single_lookup` resolves a dictionary name to
`Nonlocal_Function_Ref(slot)` when `is_recursive_function(slot)` holds —
which is exactly when the stored definiens is a Lambda_Phrase — and to
`Module_Ref(slot)` otherwise; `Bindings::analyze_values` fills the module's
slot array in slot order with a raw `Lambda(body, nargs, nslots)` for a
Lambda_Phrase slot and a `Thunk(expr)` for every other slot; the module
`{f = x -> f x; g = 1}` produces exactly that layout. -/
theorem claim_C2 :
    (∀ (loc : Nat) (a : Atom) (b : Bindings) (ns ms : Nat) (rest : Env)
       (slot : Nat),
      b.dict.find a = some slot →
      singleLookup loc a ⟨.bindingsEnv b, ns, ms⟩ rest =
        .ok (some (.op (if b.is_recursive_function slot then
            .nonlocal_function_ref slot else .module_ref slot),
          (⟨.bindingsEnv b, ns, ms⟩ : Frame), rest)))
    ∧
    (∀ (loc : Nat) (a : Atom) (b : Bindings) (ns ms : Nat) (rest : Env),
      b.dict.find a = none →
      singleLookup loc a ⟨.bindingsEnv b, ns, ms⟩ rest = .ok none)
    ∧
    (∀ (b : Bindings) (slot : Nat),
      b.is_recursive_function slot = true ↔
        ∃ l r rc, b.slotPhrases.get? slot = some (.lambda l r rc))
    ∧
    (∀ (fuel : Nat) (l r : Phrase) (rc : Bool) (phs : List Phrase) (env : Env)
       (body : Op) (nl : List Op) (na nsl : Nat) (env₁ : Env),
      analyzeOp fuel (.lambda l r rc) env =
        .ok (.lambda_expr body nl na nsl, env₁) →
      analyzeValuesList (fuel + 1) (.lambda l r rc :: phs) env =
        (analyzeValuesList fuel phs env₁).map
          (fun p => (.lambda body na nsl :: p.1, p.2)))
    ∧
    (∀ (fuel : Nat) (ph : Phrase) (phs : List Phrase) (env : Env) (e₀ : Op)
       (env₁ : Env),
      isLambdaPhrase ph = false →
      analyzeOp fuel ph env = .ok (e₀, env₁) →
      analyzeValuesList (fuel + 1) (ph :: phs) env =
        (analyzeValuesList fuel phs env₁).map
          (fun p => (.thunk e₀ :: p.1, p.2)))
    ∧
    (analyze 20 (.module (.semicolon
        [(.definition (.ident 0 "f")
            (.lambda (.ident 1 "x") (.call (.ident 2 "f") (.ident 3 "x"))
              false), .k_semicolon),
         (.definition (.ident 4 "g") (.numeral 1), .k_missing)])) topEnv =
      .ok (.op (.module_expr [("f", 0), ("g", 1)]
        [.lambda (.call_expr (.nonlocal_function_ref 0) [.arg_ref 0]) 1 1,
         .thunk (.constant (.num 1))] [] 0), topEnv)) := by
  refine ⟨?_, ?_, ?_, ?_, ?_, rfl⟩
  · intro loc a b ns ms rest slot h
    simp [singleLookup, pureSingle, h]
  · intro loc a b ns ms rest h
    simp [singleLookup, pureSingle, h]
  · intro b slot
    unfold Bindings.is_recursive_function
    cases hg : b.slotPhrases.get? slot with
    | none => simp
    | some ph => cases ph <;> simp [isLambdaPhrase]
  · intro fuel l r rc phs env body nl na nsl env₁ h
    simp only [analyzeValuesList, h, isLambdaPhrase, if_true]
    cases analyzeValuesList fuel phs env₁ <;> rfl
  · intro fuel ph phs env e₀ env₁ h₁ h₂
    simp only [analyzeValuesList, h₁, h₂, Bool.false_eq_true, if_false]
    cases analyzeValuesList fuel phs env₁ <;> rfl

/-- Witness for claim C2: both resolution kinds on a concrete Bindings, the
recursive-function test, and both slot-value constructions. -/
theorem claim_C2_witness :
    (singleLookup 9 "f" ⟨.bindingsEnv ⟨[("f", 0), ("g", 1)], 2,
        [.lambda (.ident 0 "x") (.ident 1 "x") true, .numeral 1]⟩, 0, 0⟩ [] =
      .ok (some (.op (.nonlocal_function_ref 0),
        (⟨.bindingsEnv ⟨[("f", 0), ("g", 1)], 2,
          [.lambda (.ident 0 "x") (.ident 1 "x") true, .numeral 1]⟩, 0, 0⟩ :
            Frame), []))) ∧
    (singleLookup 9 "g" ⟨.bindingsEnv ⟨[("f", 0), ("g", 1)], 2,
        [.lambda (.ident 0 "x") (.ident 1 "x") true, .numeral 1]⟩, 0, 0⟩ [] =
      .ok (some (.op (.module_ref 1),
        (⟨.bindingsEnv ⟨[("f", 0), ("g", 1)], 2,
          [.lambda (.ident 0 "x") (.ident 1 "x") true, .numeral 1]⟩, 0, 0⟩ :
            Frame), []))) ∧
    (Bindings.is_recursive_function
        ⟨[("f", 0), ("g", 1)], 2,
         [.lambda (.ident 0 "x") (.ident 1 "x") true, .numeral 1]⟩ 0 = true) ∧
    (analyzeValuesList 6 [.lambda (.ident 0 "x") (.ident 1 "x") false]
        [⟨.builtin [], 0, 0⟩] =
      .ok ([.lambda (.arg_ref 0) 1 1], [⟨.builtin [], 0, 0⟩])) ∧
    (analyzeValuesList 6 [.numeral 1] [⟨.builtin [], 0, 0⟩] =
      .ok ([.thunk (.constant (.num 1))], [⟨.builtin [], 0, 0⟩])) :=
  ⟨claim_C2.1 9 "f" ⟨[("f", 0), ("g", 1)], 2,
     [.lambda (.ident 0 "x") (.ident 1 "x") true, .numeral 1]⟩ 0 0 [] 0 rfl,
   claim_C2.1 9 "g" ⟨[("f", 0), ("g", 1)], 2,
     [.lambda (.ident 0 "x") (.ident 1 "x") true, .numeral 1]⟩ 0 0 [] 1 rfl,
   (claim_C2.2.2.1 ⟨[("f", 0), ("g", 1)], 2,
     [.lambda (.ident 0 "x") (.ident 1 "x") true, .numeral 1]⟩ 0).2
     ⟨.ident 0 "x", .ident 1 "x", true, rfl⟩,
   claim_C2.2.2.2.1 5 (.ident 0 "x") (.ident 1 "x") false []
     [⟨.builtin [], 0, 0⟩] (.arg_ref 0) [] 1 1 [⟨.builtin [], 0, 0⟩] rfl,
   claim_C2.2.2.2.2.1 5 (.numeral 1) [] [⟨.builtin [], 0, 0⟩]
     (.constant (.num 1)) [⟨.builtin [], 0, 0⟩] rfl rfl⟩

/-- Claim C3: `let(def1,...,defn) body` allocates n consecutive slots
starting at the outer environment's `frame_nslots`, assigned to the bindings
in textual order; on success it emits `Let_Expr` whose `first_slot` is that
starting index, whose values array (pre-sized, null-filled) receives one
`Thunk` per binding at index `slot - first_slot`, and whose body is analyzed
inside the `Let_Environ`; the outer environment's `frame_maxslots` is set to
the `Let_Environ`'s final `frame_maxslots`.  In particular
`let(a=1, b=a+1) b` at top level yields
`Let_Expr(first_slot=0, values=[Thunk(Constant(1)),
Thunk(Infix_Expr(+, Let_Ref(0), Constant(1)))], body=Let_Ref(1))`. -/
theorem claim_C3 :
    (∀ (args : List (Phrase × TokKind)) (s : Nat)
       (bmap : AtomMap (Nat × Phrase)),
      letPhase1 args s AtomMap.empty = .ok bmap →
      bmap.size = args.length ∧
      ∀ (i : Nat) (hi : i < args.length),
        ∃ d, analyzeDef (args.get ⟨i, hi⟩).1 = .ok (some d) ∧
          bmap.find d.name = some (s + i, d.definiens))
    ∧
    (∀ (fuel : Nat) (args : List (Phrase × TokKind)) (body : Phrase)
       (env : Env) (bmap : AtomMap (Nat × Phrase)) (values : List SlotVal)
       (chainA : Env) (body₁ : Op) (letF₁ : Frame) (restB : Env),
      letPhase1 args (frameNslots env) AtomMap.empty = .ok bmap →
      letValuesLoop fuel bmap (frameNslots env)
          (List.replicate bmap.size (.val .vnull))
          (⟨.letEnv bmap, frameNslots env + bmap.size,
            max (frameMaxslots env) (frameNslots env + bmap.size)⟩ :: env) =
        .ok (values, chainA) →
      analyzeOp fuel body chainA = .ok (body₁, letF₁ :: restB) →
      analyze (fuel + 1) (.let_ args body) env =
        .ok (.op (.let_expr (frameNslots env) values body₁),
          setHeadMaxslots letF₁.maxslots restB))
    ∧
    (∀ (fuel fs : Nat) (vs : List SlotVal) (chain : Env),
      letValuesLoop (fuel + 1) [] fs vs chain = .ok (vs, chain))
    ∧
    (∀ (fuel : Nat) (nm : Atom) (slot : Nat) (ph : Phrase)
       (rest : List (Atom × Nat × Phrase)) (fs : Nat) (vs : List SlotVal)
       (chain : Env) (e₀ : Op) (chain₁ : Env),
      analyzeOp fuel ph chain = .ok (e₀, chain₁) →
      letValuesLoop (fuel + 1) ((nm, (slot, ph)) :: rest) fs vs chain =
        letValuesLoop fuel rest fs (vs.set (slot - fs) (.thunk e₀)) chain₁)
    ∧
    (analyze 20 (.let_
        [(.definition (.ident 10 "a") (.numeral 1), .k_comma),
         (.definition (.ident 11 "b")
            (.binary .k_plus (.ident 12 "a") (.numeral 1)), .k_missing)]
        (.ident 13 "b")) topEnv =
      .ok (.op (.let_expr 0
        [.thunk (.constant (.num 1)),
         .thunk (.infix_expr .k_plus (.let_ref 0) (.constant (.num 1)))]
        (.let_ref 1)), [⟨.builtin builtin_namespace, 0, 2⟩])) := by
  refine ⟨?_, ?_, fun fuel fs vs chain => rfl, ?_, rfl⟩
  · intro args s bmap h
    constructor
    · have := letPhase1_size args s AtomMap.empty bmap h
      simpa [AtomMap.size, AtomMap.empty] using this
    · exact letPhase1_slots args s AtomMap.empty bmap h
  · intro fuel args body env bmap values chainA body₁ letF₁ restB h₁ h₂ h₃
    simp only [analyze, h₁, h₂, h₃]
  · intro fuel nm slot ph rest fs vs chain e₀ chain₁ h
    simp only [letValuesLoop, h]

/-- Witness for claim C3: the slot-allocation and emission conjuncts applied
to the bindings of `let(a=1, b=a+1) b`. -/
theorem claim_C3_witness :
    ((AtomMap.size
        [("a", ((0 : Nat), Phrase.numeral 1)),
         ("b", ((1 : Nat),
           Phrase.binary .k_plus (.ident 12 "a") (.numeral 1)))] = 2) ∧
     ∀ (i : Nat) (hi : i < 2),
       ∃ d, analyzeDef ((List.get
           [(Phrase.definition (.ident 10 "a") (.numeral 1), TokKind.k_comma),
            (Phrase.definition (.ident 11 "b")
               (.binary .k_plus (.ident 12 "a") (.numeral 1)),
             TokKind.k_missing)] ⟨i, hi⟩).1) = .ok (some d) ∧
         AtomMap.find
           [("a", ((0 : Nat), Phrase.numeral 1)),
            ("b", ((1 : Nat),
              Phrase.binary .k_plus (.ident 12 "a") (.numeral 1)))] d.name =
           some (0 + i, d.definiens)) ∧
    (letValuesLoop 4 [("a", ((0 : Nat), Phrase.numeral 1))] 0
        [SlotVal.val .vnull] topEnv =
      letValuesLoop 3 [] 0
        (List.set [SlotVal.val .vnull] (0 - 0)
          (.thunk (.constant (.num 1)))) topEnv) :=
  ⟨claim_C3.1
     [(Phrase.definition (.ident 10 "a") (.numeral 1), TokKind.k_comma),
      (Phrase.definition (.ident 11 "b")
         (.binary .k_plus (.ident 12 "a") (.numeral 1)), TokKind.k_missing)]
     0 _ rfl,
   claim_C3.2.2.2.1 3 "a" 0 (Phrase.numeral 1) [] 0 [SlotVal.val .vnull]
     topEnv (.constant (.num 1)) topEnv rfl⟩

/-- Counterexample for claim C4: analyzing the lambda `x -> x` at a top
environment whose counters are 0 succeeds with the arg scope's counters
initialized to the parameter count — `Lambda_Expr.nslots` records the child
scope's `frame_maxslots = 1` — while the parent environment's
`frame_maxslots` is still 0 afterwards, so the child did not initialize from
the parent's counters and the parent's maximum (0) is smaller than the
child's (1). -/
theorem claim_C4_counterexample :
    (analyze 5 (.lambda (.ident 0 "x") (.ident 1 "x") false)
        [⟨.builtin [], 0, 0⟩] =
      .ok (.op (.lambda_expr (.arg_ref 0) [] 1 1), [⟨.builtin [], 0, 0⟩])) ∧
    ¬(1 ≤ 0) :=
  ⟨rfl, by omega⟩

/-- Claim C4 (amended): the same-frame binding scopes initialize from the
parent's current counters and the parent absorbs their final maximum — a
successful `let` analysis runs through a `Let_Environ` whose counters start
at the parent's current `frame_nslots` plus the binding count (maxslots
maximized accordingly) and ends by setting the parent's `frame_maxslots` to
the child's final value, and a successful `for` analysis does the same with
one slot — while a lambda's `Arg_Environ` starts a fresh frame: both its
counters are initialized to the parameter count, not from the parent, and
the outer environment receives the chain below the arg scope with no
absorption of the child's maximum. -/
theorem claim_C4_amended :
    (∀ (fuel : Nat) (args : List (Phrase × TokKind)) (body : Phrase)
       (env : Env) (m : Meaning) (env' : Env),
      analyze (fuel + 1) (.let_ args body) env = .ok (m, env') →
      ∃ bmap values chainA body₁ letF₁ restB,
        letPhase1 args (frameNslots env) AtomMap.empty = .ok bmap ∧
        letValuesLoop fuel bmap (frameNslots env)
            (List.replicate bmap.size (.val .vnull))
            (⟨.letEnv bmap, frameNslots env + bmap.size,
              max (frameMaxslots env) (frameNslots env + bmap.size)⟩ :: env) =
          .ok (values, chainA) ∧
        analyzeOp fuel body chainA = .ok (body₁, letF₁ :: restB) ∧
        m = .op (.let_expr (frameNslots env) values body₁) ∧
        env' = setHeadMaxslots letF₁.maxslots restB)
    ∧
    (∀ (fuel : Nat) (defloc : Nat) (name : Atom) (dright : Phrase)
       (sep : TokKind) (body : Phrase) (env : Env) (m : Meaning) (env' : Env),
      analyze (fuel + 1)
          (.for_ [(.definition (.ident defloc name) dright, sep)] body) env =
        .ok (m, env') →
      ∃ list env₁ body₁ forF₁ restB,
        analyzeOp fuel dright env = .ok (list, env₁) ∧
        analyzeOp fuel body
            (⟨.forEnv name (frameNslots env₁), frameNslots env₁ + 1,
              max (frameMaxslots env₁) (frameNslots env₁ + 1)⟩ :: env₁) =
          .ok (body₁, forF₁ :: restB) ∧
        m = .op (.for_expr (frameNslots env₁) list body₁) ∧
        env' = setHeadMaxslots forF₁.maxslots restB)
    ∧
    (∀ (fuel : Nat) (left right : Phrase) (rec : Bool) (env : Env)
       (m : Meaning) (env' : Env),
      analyze (fuel + 1) (.lambda left right rec) env = .ok (m, env') →
      ∃ params k body names₁ rec₁ nld₁ nle₁ ns₁ ms₁,
        lambdaParams left = .ok (params, k) ∧
        analyzeOp fuel right
            (⟨.argEnv params rec AtomMap.empty [],
              params.size, params.size⟩ :: env) =
          .ok (body, ⟨.argEnv names₁ rec₁ nld₁ nle₁, ns₁, ms₁⟩ :: env') ∧
        m = .op (.lambda_expr body nle₁ params.size ms₁)) := by
  refine ⟨?_, ?_, ?_⟩
  · intro fuel args body env m env' h
    simp only [analyze] at h
    cases h₁ : letPhase1 args (frameNslots env) AtomMap.empty with
    | error e => simp only [h₁] at h; exact Except.noConfusion h
    | ok bmap =>
      simp only [h₁] at h
      cases h₂ : letValuesLoop fuel bmap (frameNslots env)
          (List.replicate bmap.size (.val .vnull))
          (⟨.letEnv bmap, frameNslots env + bmap.size,
            max (frameMaxslots env) (frameNslots env + bmap.size)⟩ :: env) with
      | error e => simp only [h₂] at h; exact Except.noConfusion h
      | ok p =>
        obtain ⟨values, chainA⟩ := p
        simp only [h₂] at h
        cases h₃ : analyzeOp fuel body chainA with
        | error e => simp only [h₃] at h; exact Except.noConfusion h
        | ok q =>
          obtain ⟨body₁, chainB⟩ := q
          simp only [h₃] at h
          cases chainB with
          | nil => simp at h
          | cons letF₁ restB =>
            simp only [Except.ok.injEq, Prod.mk.injEq] at h
            obtain ⟨hm, he⟩ := h
            exact ⟨bmap, values, chainA, body₁, letF₁, restB, rfl, h₂, h₃,
              hm.symm, he.symm⟩
  · intro fuel defloc name dright sep body env m env' h
    simp only [analyze] at h
    cases h₁ : analyzeOp fuel dright env with
    | error e => simp only [h₁] at h; exact Except.noConfusion h
    | ok p =>
      obtain ⟨list, env₁⟩ := p
      simp only [h₁] at h
      cases h₂ : analyzeOp fuel body
          (⟨.forEnv name (frameNslots env₁), frameNslots env₁ + 1,
            max (frameMaxslots env₁) (frameNslots env₁ + 1)⟩ :: env₁) with
      | error e => simp only [h₂] at h; exact Except.noConfusion h
      | ok q =>
        obtain ⟨body₁, chainB⟩ := q
        simp only [h₂] at h
        cases chainB with
        | nil => simp at h
        | cons forF₁ restB =>
          simp only [Except.ok.injEq, Prod.mk.injEq] at h
          obtain ⟨hm, he⟩ := h
          exact ⟨list, env₁, body₁, forF₁, restB, rfl, h₂, hm.symm, he.symm⟩
  · intro fuel left right rec env m env' h
    simp only [analyze] at h
    cases h₁ : lambdaParams left with
    | error e => simp only [h₁] at h; exact Except.noConfusion h
    | ok p =>
      obtain ⟨params, k⟩ := p
      simp only [h₁] at h
      cases h₂ : analyzeOp fuel right
          (⟨.argEnv params rec AtomMap.empty [],
            params.size, params.size⟩ :: env) with
      | error e => simp only [h₂] at h; exact Except.noConfusion h
      | ok q =>
        obtain ⟨body, chainB⟩ := q
        simp only [h₂] at h
        cases chainB with
        | nil => simp at h
        | cons fB restB =>
          obtain ⟨dB, nsB, msB⟩ := fB
          cases dB with
          | builtin ns₂ => simp at h
          | bindingsEnv b => simp at h
          | letEnv names₂ => simp at h
          | forEnv name₂ slot₂ => simp at h
          | argEnv names₁ rec₁ nld₁ nle₁ =>
            simp only [Except.ok.injEq, Prod.mk.injEq] at h
            obtain ⟨hm, he⟩ := h
            subst he
            exact ⟨params, k, body, names₁, rec₁, nld₁, nle₁, nsB, msB,
              rfl, h₂, hm.symm⟩

/-- Witness for claim C4 (amended): the three inversions at concrete
analyses — `let(a=1) a`, `for (i = [1]) i`, and `x -> x` at top level. -/
theorem claim_C4_witness :
    (∃ bmap values chainA body₁ letF₁ restB,
      letPhase1 [(.definition (.ident 1 "a") (.numeral 1), .k_missing)]
          (frameNslots topEnv) AtomMap.empty = .ok bmap ∧
      letValuesLoop 9 bmap (frameNslots topEnv)
          (List.replicate bmap.size (.val .vnull))
          (⟨.letEnv bmap, frameNslots topEnv + bmap.size,
            max (frameMaxslots topEnv) (frameNslots topEnv + bmap.size)⟩ ::
              topEnv) =
        .ok (values, chainA) ∧
      analyzeOp 9 (.ident 2 "a") chainA = .ok (body₁, letF₁ :: restB) ∧
      (Meaning.op (.let_expr 0 [.thunk (.constant (.num 1))] (.let_ref 0))) =
        .op (.let_expr (frameNslots topEnv) values body₁) ∧
      ([(⟨.builtin builtin_namespace, 0, 1⟩ : Frame)] : Env) =
        setHeadMaxslots letF₁.maxslots restB) ∧
    (∃ list env₁ body₁ forF₁ restB,
      analyzeOp 9 (.bracket [(.numeral 1, .k_missing)]) topEnv =
        .ok (list, env₁) ∧
      analyzeOp 9 (.ident 3 "i")
          (⟨.forEnv "i" (frameNslots env₁), frameNslots env₁ + 1,
            max (frameMaxslots env₁) (frameNslots env₁ + 1)⟩ :: env₁) =
        .ok (body₁, forF₁ :: restB) ∧
      (Meaning.op (.for_expr 0 (.list_expr [.constant (.num 1)])
          (.let_ref 0))) =
        .op (.for_expr (frameNslots env₁) list body₁) ∧
      ([(⟨.builtin builtin_namespace, 0, 1⟩ : Frame)] : Env) =
        setHeadMaxslots forF₁.maxslots restB) ∧
    (∃ params k body names₁ rec₁ nld₁ nle₁ ns₁ ms₁,
      lambdaParams (.ident 0 "x") = .ok (params, k) ∧
      analyzeOp 4 (.ident 1 "x")
          (⟨.argEnv params false AtomMap.empty [],
            params.size, params.size⟩ :: topEnv) =
        .ok (body, ⟨.argEnv names₁ rec₁ nld₁ nle₁, ns₁, ms₁⟩ :: topEnv) ∧
      (Meaning.op (.lambda_expr (.arg_ref 0) [] 1 1)) =
        .op (.lambda_expr body nle₁ params.size ms₁)) :=
  ⟨claim_C4_amended.1 9
     [(.definition (.ident 1 "a") (.numeral 1), .k_missing)] (.ident 2 "a")
     topEnv (.op (.let_expr 0 [.thunk (.constant (.num 1))] (.let_ref 0)))
     [⟨.builtin builtin_namespace, 0, 1⟩] rfl,
   claim_C4_amended.2.1 9 2 "i" (.bracket [(.numeral 1, .k_missing)])
     .k_missing (.ident 3 "i") topEnv
     (.op (.for_expr 0 (.list_expr [.constant (.num 1)]) (.let_ref 0)))
     [⟨.builtin builtin_namespace, 0, 1⟩] rfl,
   claim_C4_amended.2.2 4 (.ident 0 "x") (.ident 1 "x") false topEnv
     (.op (.lambda_expr (.arg_ref 0) [] 1 1)) topEnv rfl⟩

end Curv
